import Mathlib

/-!
Verification of the OGREE event-pipeline core against its specification.

The Python sources are shallowly embedded: pure functions become Lean
functions, machine integers are `Nat`/`Int` with explicit `% 2^32` where
overflow matters, times are UTC epoch seconds as `Int`, Python floats are
modelled as `ℚ` (all scores in the program are small decimal fractions and
all comparisons performed on them are order-faithful under this embedding),
and fallible code returns `Option`.

Embedded modules:
  - `ogree_alpha/hashing.py` (content_hash, stable_json_dumps, sha256_hex,
    canonical_doc_id, alert_id), including a full executable SHA-256.
  - `ogree_alpha/db/repo.py` (insert_raw_event) over a list-backed store.
  - `ogree_alpha/convergence.py` (apply_convergence and helpers).
  - `ogree_alpha/alert_generator.py` (tier_for_score, build_alert).
  - `ogree_alpha/chain_view.py` (compute_chain_scores).
  - `ogree_alpha/adapters/ree_uranium.py` and `sec_edgar.py` (_parse_dt,
    the retrying HTTP substrate, the Form-4 XML transaction extractor).
-/

set_option maxRecDepth 1000000

/-! ## SHA-256 over byte lists (model of hashlib.sha256) -/

/-- 2^32, the modulus of SHA-256 word arithmetic. -/
def m32 : Nat := 4294967296

def add32 (a b : Nat) : Nat := (a + b) % m32

def xor32 (a b : Nat) : Nat := Nat.xor a b

def rotr32 (n x : Nat) : Nat :=
  ((x >>> n) ||| (x <<< (32 - n))) % m32

def shr32 (n x : Nat) : Nat := x >>> n

def not32 (x : Nat) : Nat := m32 - 1 - x

def bsig0 (x : Nat) : Nat := xor32 (xor32 (rotr32 2 x) (rotr32 13 x)) (rotr32 22 x)

def bsig1 (x : Nat) : Nat := xor32 (xor32 (rotr32 6 x) (rotr32 11 x)) (rotr32 25 x)

def ssig0 (x : Nat) : Nat := xor32 (xor32 (rotr32 7 x) (rotr32 18 x)) (shr32 3 x)

def ssig1 (x : Nat) : Nat := xor32 (xor32 (rotr32 17 x) (rotr32 19 x)) (shr32 10 x)

def chFn (x y z : Nat) : Nat := xor32 (Nat.land x y) (Nat.land (not32 x) z)

def majFn (x y z : Nat) : Nat := xor32 (xor32 (Nat.land x y) (Nat.land x z)) (Nat.land y z)

/-- the 64 SHA-256 round constants (FIPS 180-4, written in decimal). -/
def sha256K : List Nat :=
  [1116352408, 1899447441, 3049323471, 3921009573, 961987163, 1508970993,
   2453635748, 2870763221, 3624381080, 310598401, 607225278, 1426881987,
   1925078388, 2162078206, 2614888103, 3248222580, 3835390401, 4022224774,
   264347078, 604807628, 770255983, 1249150122, 1555081692, 1996064986,
   2554220882, 2821834349, 2952996808, 3210313671, 3336571891, 3584528711,
   113926993, 338241895, 666307205, 773529912, 1294757372, 1396182291,
   1695183700, 1986661051, 2177026350, 2456956037, 2730485921, 2820302411,
   3259730800, 3345764771, 3516065817, 3600352804, 4094571909, 275423344,
   430227734, 506948616, 659060556, 883997877, 958139571, 1322822218,
   1537002063, 1747873779, 1955562222, 2024104815, 2227730452, 2361852424,
   2428436474, 2756734187, 3204031479, 3329325298]

structure Hash8 where
  a : Nat
  b : Nat
  c : Nat
  d : Nat
  e : Nat
  f : Nat
  g : Nat
  h : Nat
deriving DecidableEq, Repr

def initH : Hash8 :=
  ⟨1779033703, 3144134277, 1013904242, 2773480762,
   1359893119, 2600822924, 528734635, 1541459225⟩

/-- extend the 16 block words by `rounds` further schedule words. -/
def extendW (w : List Nat) (rounds : Nat) : List Nat :=
  match rounds with
  | 0 => w
  | r + 1 =>
    let i := w.length
    let nw := add32 (add32 (ssig1 (w.getD (i - 2) 0)) (w.getD (i - 7) 0))
                    (add32 (ssig0 (w.getD (i - 15) 0)) (w.getD (i - 16) 0))
    extendW (w ++ [nw]) r

def roundStep (st : Hash8) (kw : Nat × Nat) : Hash8 :=
  let t1 := add32 (add32 (add32 st.h (bsig1 st.e)) (add32 (chFn st.e st.f st.g) kw.1)) kw.2
  let t2 := add32 (bsig0 st.a) (majFn st.a st.b st.c)
  ⟨add32 t1 t2, st.a, st.b, st.c, add32 st.d t1, st.e, st.f, st.g⟩

def addH (x y : Hash8) : Hash8 :=
  ⟨add32 x.a y.a, add32 x.b y.b, add32 x.c y.c, add32 x.d y.d,
   add32 x.e y.e, add32 x.f y.f, add32 x.g y.g, add32 x.h y.h⟩

/-- big-endian 4-byte groups to 32-bit words. -/
def bytesToWords : List Nat → List Nat
  | b0 :: b1 :: b2 :: b3 :: rest => (((b0 * 256 + b1) * 256 + b2) * 256 + b3) :: bytesToWords rest
  | _ => []

def compressBlock (st : Hash8) (block : List Nat) : Hash8 :=
  let w := extendW (bytesToWords block) 48
  let fin := (w.zip sha256K).foldl roundStep st
  addH st fin

/-- split a byte list into 64-byte blocks; fuel keeps the recursion structural. -/
def splitBlocksFuel : Nat → List Nat → List (List Nat)
  | 0, _ => []
  | _, [] => []
  | fuel + 1, b :: rest => (b :: rest).take 64 :: splitBlocksFuel fuel ((b :: rest).drop 64)

def splitBlocks (bs : List Nat) : List (List Nat) := splitBlocksFuel bs.length bs

def lenBytes64 (n : Nat) : List Nat :=
  [n >>> 56 % 256, n >>> 48 % 256, n >>> 40 % 256, n >>> 32 % 256,
   n >>> 24 % 256, n >>> 16 % 256, n >>> 8 % 256, n % 256]

def padMessage (msg : List Nat) : List Nat :=
  let l := msg.length
  let padLen := (55 + 64 - l % 64) % 64 + 1
  msg ++ (128 :: List.replicate (padLen - 1) 0) ++ lenBytes64 (8 * l)

def sha256Bytes (msg : List Nat) : Hash8 :=
  (splitBlocks (padMessage msg)).foldl compressBlock initH

def hexChar (n : Nat) : Char :=
  if n < 10 then Char.ofNat (48 + n) else Char.ofNat (87 + n)

def word32Hex (x : Nat) : List Char :=
  [hexChar (x >>> 28 % 16), hexChar (x >>> 24 % 16), hexChar (x >>> 20 % 16),
   hexChar (x >>> 16 % 16), hexChar (x >>> 12 % 16), hexChar (x >>> 8 % 16),
   hexChar (x >>> 4 % 16), hexChar (x % 16)]

def hash8Hex (st : Hash8) : String :=
  String.mk (word32Hex st.a ++ word32Hex st.b ++ word32Hex st.c ++ word32Hex st.d ++
             word32Hex st.e ++ word32Hex st.f ++ word32Hex st.g ++ word32Hex st.h)

/-- UTF-8 bytes of one character. -/
def charUtf8 (c : Char) : List Nat :=
  let n := c.toNat
  if n < 128 then [n]
  else if n < 2048 then [192 + n / 64, 128 + n % 64]
  else if n < 65536 then [224 + n / 4096, 128 + n / 64 % 64, 128 + n % 64]
  else [240 + n / 262144, 128 + n / 4096 % 64, 128 + n / 64 % 64, 128 + n % 64]

def utf8Bytes (s : String) : List Nat :=
  s.data.foldr (fun c acc => charUtf8 c ++ acc) []

/-- model of hashing.sha256_hex: SHA-256 hex digest of the UTF-8 encoding. -/
def sha256_hex (s : String) : String := hash8Hex (sha256Bytes (utf8Bytes s))

/-! ## JSON-like payloads and the canonical encoding (hashing.py)

A JSON value is modelled as a single inductive in first-child style: array
elements chain through `arrCons`, object fields through `objCons`. Keeping
one non-nested inductive makes every function below plain structural
recursion, so the kernel can evaluate the hash of concrete payloads. -/

inductive Json where
  | null : Json
  | jbool (b : Bool) : Json
  | jnum (n : Int) : Json
  | jstr (s : String) : Json
  | arrNil : Json
  | arrCons (hd tl : Json) : Json
  | objNil : Json
  | objCons (key : String) (val tl : Json) : Json
deriving DecidableEq, Repr

/-- JSON string escaping as json.dumps with ensure_ascii=False performs it:
only the quote, the backslash and control characters are escaped; non-ASCII
characters pass through. -/
def escapeChar (c : Char) : List Char :=
  if c = '"' then ['\\', '"']
  else if c = '\\' then ['\\', '\\']
  else if c = '\n' then ['\\', 'n']
  else if c = '\t' then ['\\', 't']
  else if c = '\r' then ['\\', 'r']
  else if c.toNat = 8 then ['\\', 'b']
  else if c.toNat = 12 then ['\\', 'f']
  else if c.toNat < 32 then
    ['\\', 'u', '0', '0', hexChar (c.toNat / 16), hexChar (c.toNat % 16)]
  else [c]

def jsonQuote (s : String) : String :=
  String.mk ('"' :: s.data.foldr (fun c acc => escapeChar c ++ acc) ['"'])

/-- compact JSON encoding with separators (",", ":"), as json.dumps emits it.
Returns the pair (full encoding, encoding of the element chain without the
enclosing brackets); the second component keeps the recursion over chains
structural. -/
def encPair : Json → String × String
  | .null => ("null", "null")
  | .jbool b => (cond b "true" "false", cond b "true" "false")
  | .jnum n => (toString n, toString n)
  | .jstr s => (jsonQuote s, jsonQuote s)
  | .arrNil => ("[]", "")
  | .arrCons h t =>
    let hs := (encPair h).1
    let ts := (encPair t).2
    let items :=
      match t with
      | .arrCons _ _ => hs ++ "," ++ ts
      | _ => hs
    ("[" ++ items ++ "]", items)
  | .objNil => ("\x7b\x7d", "")
  | .objCons k v t =>
    let vs := (encPair v).1
    let ts := (encPair t).2
    let items :=
      match t with
      | .objCons _ _ _ => jsonQuote k ++ ":" ++ vs ++ "," ++ ts
      | _ => jsonQuote k ++ ":" ++ vs
    ("\x7b" ++ items ++ "\x7d", items)

/-- executable lexicographic code-point comparison of strings, the order
Python sorted uses on str keys. -/
def strLt (a b : String) : Bool := decide (a.data < b.data)

/-- insert a field into an object chain ordered by key (strict lexicographic
String order, which is code-point order as Python sorted uses on str). -/
def sortInsertField (k : String) (v : Json) : Json → Json
  | .objCons k2 v2 t =>
    if strLt k k2 then .objCons k v (.objCons k2 v2 t)
    else .objCons k2 v2 (sortInsertField k v t)
  | t => .objCons k v t

/-- model of hashing._normalize: sort object keys at every level, preserve
array order, leave scalars unchanged. -/
def normalizeJson : Json → Json
  | .null => .null
  | .jbool b => .jbool b
  | .jnum n => .jnum n
  | .jstr s => .jstr s
  | .arrNil => .arrNil
  | .arrCons h t => .arrCons (normalizeJson h) (normalizeJson t)
  | .objNil => .objNil
  | .objCons k v t => sortInsertField k (normalizeJson v) (normalizeJson t)

/-- model of hashing.stable_json_dumps. -/
def stable_json_dumps (payload : Json) : String := (encPair (normalizeJson payload)).1

/-- model of hashing.content_hash. -/
def content_hash (payload_json : Json) : String := sha256_hex (stable_json_dumps payload_json)

/-- model of hashing.canonical_doc_id. -/
def canonical_doc_id (source_system : String) (content_hash_hex : String) : String :=
  source_system ++ ":" ++ String.mk (content_hash_hex.data.take 16)

/-- model of hashing.alert_id. -/
def alert_id (canonical_doc : String) (tier : String) (event_type : String) : String :=
  String.mk ((sha256_hex (canonical_doc ++ "|" ++ tier ++ "|" ++ event_type)).data.take 24)

/-- keys of the top object level of a value (empty for non-objects). -/
def topKeys : Json → List String
  | .objCons k _ t => k :: topKeys t
  | _ => []

/-- no object level anywhere in the value repeats a key (Python dicts cannot). -/
def nodupKeys : Json → Bool
  | .arrCons h t => nodupKeys h && nodupKeys t
  | .objCons k v t => decide (k ∉ topKeys t) && nodupKeys v && nodupKeys t
  | _ => true

/-- `ObjInsert k v t u` holds when object chain `u` is `t` with field
`(k, v)` inserted at some position. -/
inductive ObjInsert (k : String) (v : Json) : Json → Json → Prop
  | here (t : Json) : ObjInsert k v t (.objCons k v t)
  | there (k2 : String) (v2 : Json) (t t' : Json) :
      ObjInsert k v t t' → ObjInsert k v (.objCons k2 v2 t) (.objCons k2 v2 t')

/-- `KeyPerm p q` holds when `q` is obtained from `p` by reordering object
keys at any nesting level, preserving array element order. -/
inductive KeyPerm : Json → Json → Prop
  | null : KeyPerm .null .null
  | jbool (b : Bool) : KeyPerm (.jbool b) (.jbool b)
  | jnum (n : Int) : KeyPerm (.jnum n) (.jnum n)
  | jstr (s : String) : KeyPerm (.jstr s) (.jstr s)
  | arrNil : KeyPerm .arrNil .arrNil
  | arrCons {h h' t t' : Json} :
      KeyPerm h h' → KeyPerm t t' → KeyPerm (.arrCons h t) (.arrCons h' t')
  | objNil : KeyPerm .objNil .objNil
  | objCons {k : String} {v v' t t' u : Json} :
      KeyPerm v v' → KeyPerm t t' → ObjInsert k v' t' u → KeyPerm (.objCons k v t) u

/-- example payload with an array: obj with keys "sym", "vals". -/
def arrayPayloadA : Json :=
  .objCons "sym" (.jstr "PR")
    (.objCons "vals" (.arrCons (.jnum 1) (.arrCons (.jnum 2) .arrNil)) .objNil)

/-- the same payload with the two array elements swapped. -/
def arrayPayloadB : Json :=
  .objCons "sym" (.jstr "PR")
    (.objCons "vals" (.arrCons (.jnum 2) (.arrCons (.jnum 1) .arrNil)) .objNil)

/-- concrete payload whose keys are reordered in `keyPermPayloadB`. -/
def keyPermPayloadA : Json :=
  .objCons "type" (.jstr "permit_filed")
    (.objCons "region" (.jstr "texas")
      (.objCons "meta" (.objCons "b" (.jnum 2) (.objCons "a" (.jnum 1) .objNil)) .objNil))

/-- `keyPermPayloadA` with keys reordered at both nesting levels. -/
def keyPermPayloadB : Json :=
  .objCons "region" (.jstr "texas")
    (.objCons "meta" (.objCons "a" (.jnum 1) (.objCons "b" (.jnum 2) .objNil))
      (.objCons "type" (.jstr "permit_filed") .objNil))

/-! ## Storage repository (db/repo.py) -/

structure RawEvent where
  source_system : String
  source_event_id : Option String
  event_time : Option Int
  ingest_time : Int
  payload_json : Json
  content_hash : String
  canonical_doc_id : Option String
deriving DecidableEq, Repr

structure StoredEvent where
  id : Nat
  ev : RawEvent
deriving DecidableEq, Repr

/-- the event_log relation plus the monotonic id counter the store assigns. -/
structure EventStore where
  rows : List StoredEvent
  nextId : Nat
deriving DecidableEq, Repr

/-- a stored row conflicts with the incoming event on the partial unique
index (source_system, source_event_id) where source_event_id is not null. -/
def conflictKeyMatches (e : RawEvent) (r : StoredEvent) : Bool :=
  match e.source_event_id with
  | none => false
  | some sid => decide (r.ev.source_system = e.source_system ∧ r.ev.source_event_id = some sid)

/-- model of repo.insert_raw_event: insert-or-ignore on the partial unique
index; returns ((inserted, id), store after the call). On conflict the
existing row id is returned and the store is unchanged. -/
def insert_raw_event (st : EventStore) (e : RawEvent) : (Bool × Nat) × EventStore :=
  match (st.rows.find? (conflictKeyMatches e)).map StoredEvent.id with
  | some existingId => ((false, existingId), st)
  | none => ((true, st.nextId), ⟨st.rows ++ [⟨st.nextId, e⟩], st.nextId + 1⟩)

/-- sample event used to instantiate the idempotency theorem. -/
def sampleRawEvent : RawEvent :=
  { source_system := "ree_uranium"
    source_event_id := some "reeu_0001"
    event_time := some 1770000000
    ingest_time := 1770000300
    payload_json := Json.objCons "type" (Json.jstr "claims_staked") Json.objNil
    content_hash := content_hash (Json.objCons "type" (Json.jstr "claims_staked") Json.objNil)
    canonical_doc_id := some "ree_uranium:0000111122223333" }

def emptyStore : EventStore := ⟨[], 1⟩

/-! ## Alert generator (alert_generator.py) -/

/-- model of alert_generator.tier_for_score. Scores are exact rationals, an
order-faithful model of the Python float comparisons performed here. -/
def tier_for_score (score : ℚ) : String :=
  if score ≥ 0.8 then "high"
  else if score ≥ 0.5 then "medium"
  else if score ≥ 0.3 then "low"
  else ""

/-- tier ranks for the spec ordering `"" < low < medium < high`. -/
def tierRank : String → Nat
  | "high" => 3
  | "medium" => 2
  | "low" => 1
  | _ => 0

def pad2 (n : Nat) : String := if n < 10 then "0" ++ toString n else toString n

def pad4 (n : Nat) : String :=
  if n < 10 then "000" ++ toString n
  else if n < 100 then "00" ++ toString n
  else if n < 1000 then "0" ++ toString n
  else toString n

/-- civil date from days since the Unix epoch (valid for nonnegative days;
this program only handles post-1970 timestamps). -/
def civilFromDays (z0 : Nat) : Nat × Nat × Nat :=
  let z := z0 + 719468
  let era := z / 146097
  let doe := z % 146097
  let yoe := (doe - doe / 1460 + doe / 36524 - doe / 146096) / 365
  let y := yoe + era * 400
  let doy := doe - (365 * yoe + yoe / 4 - yoe / 100)
  let mp := (5 * doy + 2) / 153
  let d := doy - (153 * mp + 2) / 5 + 1
  let m := if mp < 10 then mp + 3 else mp - 9
  (if m ≤ 2 then y + 1 else y, m, d)

/-- Python str() of an aware UTC datetime: "YYYY-MM-DD HH:MM:SS+00:00". -/
def pyDatetimeStr (secs : Nat) : String :=
  let days := secs / 86400
  let rem := secs % 86400
  let ymd := civilFromDays days
  pad4 ymd.1 ++ "-" ++ pad2 ymd.2.1 ++ "-" ++ pad2 ymd.2.2 ++ " "
    ++ pad2 (rem / 3600) ++ ":" ++ pad2 (rem % 3600 / 60) ++ ":" ++ pad2 (rem % 60)
    ++ "+00:00"

/-- isoformat().replace("+00:00", "Z") of an aware UTC datetime. -/
def dtIsoZ (secs : Nat) : String :=
  let days := secs / 86400
  let rem := secs % 86400
  let ymd := civilFromDays days
  pad4 ymd.1 ++ "-" ++ pad2 ymd.2.1 ++ "-" ++ pad2 ymd.2.2 ++ "T"
    ++ pad2 (rem / 3600) ++ ":" ++ pad2 (rem % 3600 / 60) ++ ":" ++ pad2 (rem % 60)
    ++ "Z"

/-- Python f-string rendering of an Option datetime (None renders "None"). -/
def strOfOptDt : Option Nat → String
  | none => "None"
  | some s => pyDatetimeStr s

/-- Python f-string rendering of an Option string. -/
def strOfOptStr : Option String → String
  | none => "None"
  | some s => s

/-- Python `a or b` over optional strings (None and "" are falsy). -/
def pyStrOr (a b : Option String) : Option String :=
  match a with
  | some s => if s = "" then b else some s
  | none => b

def strUpper (s : String) : String := String.mk (s.data.map Char.toUpper)

def trimZeros (l : List Char) : List Char :=
  (l.reverse.dropWhile (fun c => c = '0')).reverse

/-- decimal rendering of the nonnegative program scores (at most 4 decimal
places, at least one), matching Python repr on the values produced here. -/
def floatRepr (q : ℚ) : String :=
  let ip := q.floor
  let scaled := ((q - ip) * 10000).floor.toNat
  let digits := [Char.ofNat (48 + scaled / 1000), Char.ofNat (48 + scaled / 100 % 10),
                 Char.ofNat (48 + scaled / 10 % 10), Char.ofNat (48 + scaled % 10)]
  let trimmed := trimZeros digits
  toString ip ++ "." ++ (if trimmed.isEmpty then "0" else String.mk trimmed)

/-- the chain row as build_alert receives it: a dict, so every key the
function reads with .get may be absent (None). Rows from
compute_chain_scores carry no insider keys at all, so those .get calls
yield None there. -/
structure ARow where
  lineage_id : String
  score : ℚ
  last_event_time : Option Nat
  permit_id : Option String
  operator : Option String
  company : Option String
  region : Option String
  has_permit : Option Bool
  has_spud : Option Bool
  has_well : Option Bool
  has_production : Option Bool
  has_insider_buy : Option Bool
  has_insider_buy_cluster : Option Bool
  convergence_score : Option Nat
  convergence_categories : Option (List String)
deriving DecidableEq, Repr

structure ScoreSummary where
  score : ℚ
  has_permit : Bool
  has_spud : Bool
  has_well : Bool
  has_production : Bool
  has_insider_buy : Bool
  has_insider_buy_cluster : Bool
  convergence_score : Nat
  convergence_categories : List String
deriving DecidableEq, Repr

structure EvidencePointer where
  lineage_id : String
  permit_id : Option String
  operator : Option String
  company : Option String
  region : Option String
  last_event_time : Option String
deriving DecidableEq, Repr

/-- the alert dict build_alert assembles. The `details` key (a safe-
serialized copy of the row) is carried by the Python code verbatim and not
re-modelled here; no claim touches it. -/
structure AlertOut where
  alert_id : String
  tier : String
  event_type : String
  event_time : Option Nat
  ingest_time : Nat
  company_id : Option String
  asset_id : Option String
  canonical_doc_id : String
  evidence_pointer : EvidencePointer
  score_summary : ScoreSummary
  summary : String
  regime_context : Option String
deriving DecidableEq, Repr

/-- model of alert_generator.build_alert. The wall clock read by _now_utc()
is passed explicitly as `now`. -/
def build_alert (row : ARow) (utc_date : String) (company_id : Option String)
    (now : Nat) : AlertOut :=
  let lineage_id := row.lineage_id
  let tier := tier_for_score row.score
  let aid := String.mk
    ((sha256_hex ("chain_progression|AK|" ++ lineage_id ++ "|" ++ utc_date)).data.take 24)
  let cdoc := String.mk
    ((sha256_hex ("chain_progression|" ++ lineage_id ++ "|"
        ++ strOfOptDt row.last_event_time)).data.take 24)
  let last_iso := row.last_event_time.map dtIsoZ
  let ev : EvidencePointer :=
    { lineage_id := lineage_id
      permit_id := row.permit_id
      operator := row.operator
      company := row.company
      region := row.region
      last_event_time := last_iso }
  let ss : ScoreSummary :=
    { score := row.score
      has_permit := row.has_permit.getD false
      has_spud := row.has_spud.getD false
      has_well := row.has_well.getD false
      has_production := row.has_production.getD false
      has_insider_buy := row.has_insider_buy.getD false
      has_insider_buy_cluster := row.has_insider_buy_cluster.getD false
      convergence_score := row.convergence_score.getD 0
      convergence_categories := row.convergence_categories.getD [] }
  let actor := (pyStrOr row.operator row.company).getD "unknown"
  let summary0 :=
    "[" ++ strUpper tier ++ "] chain progression "
      ++ (pyStrOr row.permit_id (some lineage_id)).getD lineage_id
      ++ " (" ++ actor ++ ", " ++ strOfOptStr row.region ++ ") score="
      ++ floatRepr ss.score
  let summary :=
    if ss.convergence_score ≥ 3 then
      summary0 ++ " convergence=" ++ toString ss.convergence_score ++ " ["
        ++ String.intercalate "," ss.convergence_categories ++ "]"
    else summary0
  { alert_id := aid
    tier := tier
    event_type := "chain_progression"
    event_time := row.last_event_time
    ingest_time := now
    company_id := company_id
    asset_id := none
    canonical_doc_id := cdoc
    evidence_pointer := ev
    score_summary := ss
    summary := summary
    regime_context := none }

/-- the row of the repository test test_build_alert_stable_id. -/
def sampleARow : ARow :=
  { lineage_id := "L3"
    score := 1
    last_event_time := some 1770422400
    permit_id := some "P3"
    operator := some "Op3"
    company := none
    region := some "AK"
    has_permit := some true
    has_spud := none
    has_well := some true
    has_production := none
    has_insider_buy := none
    has_insider_buy_cluster := none
    convergence_score := none
    convergence_categories := none }

/-! ## Chain aggregator (chain_view.py)

compute_chain_scores groups events by payload_json.lineage_id into buckets
(defaultdict, insertion order = first occurrence), folds the loop body over
each bucket's events, then emits one row per bucket sorted by score
descending. The embedding folds the loop body per lineage over the events
carrying that lineage, which processes exactly the same events in the same
order as the Python single pass. -/

structure CVPayload where
  lineage_id : Option String
  type : Option String
  region : Option String
  commodity : Option String
  operator : Option String
  permit_id : Option String
  field : Option String
  county : Option String
  company : Option String
  company_id : Option String
  project : Option String
  tickers : Option (List String)
  ip_boed : Option ℚ
deriving DecidableEq, Repr

/-- payload with every key absent, also standing for a missing payload_json
(the code substitutes an empty dict). -/
def emptyCVPayload : CVPayload :=
  ⟨none, none, none, none, none, none, none, none, none, none, none, none, none⟩

structure CVEvent where
  payload_json : CVPayload
  event_time : Option Int
  ingest_time : Option Int
deriving DecidableEq, Repr

def TX_PERMIT_TYPES : List String := ["permit_filed", "permit_issued", "drilling_permit"]

def TX_SPUD_TYPES : List String := ["spud_reported"]

def TX_WELL_TYPES : List String := ["completion_reported", "well_completion", "drill_result", "well_record"]

def TX_PRODUCTION_TYPES : List String := ["production_reported"]

def REE_U_CLAIMS_TYPES : List String := ["claims_staked", "exploration_permit"]

def REE_U_DRILL_TYPES : List String := ["drill_assay"]

def REE_U_RESOURCE_TYPES : List String := ["resource_estimate"]

def REE_U_STUDY_TYPES : List String := ["pea_published", "pfs_published", "feasibility_study"]

def REE_U_DEAL_TYPES : List String := ["financing_closed", "financing_announced", "offtake_agreement"]

def REE_U_POLICY_TYPES : List String := ["policy_designation"]

def isPySpace (c : Char) : Bool :=
  decide (c = ' ' ∨ c = '\t' ∨ c = '\n' ∨ c = '\r' ∨ c.toNat = 11 ∨ c.toNat = 12)

/-- Python str.strip(). -/
def strStrip (s : String) : String :=
  String.mk (((s.data.dropWhile isPySpace).reverse.dropWhile isPySpace).reverse)

/-- Python str.lower() (ASCII; the region/commodity literals compared here
are ASCII). -/
def strLower (s : String) : String := String.mk (s.data.map Char.toLower)

/-- Python `t in SET` where t may be None. -/
def optMem (t : Option String) (ts : List String) : Bool :=
  match t with
  | some s => ts.contains s
  | none => false

structure ChainFlags where
  has_permit : Bool
  has_spud : Bool
  has_well : Bool
  has_production : Bool
  has_claims : Bool
  has_drill_assay : Bool
  has_resource : Bool
  has_study : Bool
  has_deal : Bool
  has_policy : Bool
deriving DecidableEq, Repr

def noFlags : ChainFlags :=
  ⟨false, false, false, false, false, false, false, false, false, false⟩

def orFlags (a b : ChainFlags) : ChainFlags :=
  ⟨a.has_permit || b.has_permit, a.has_spud || b.has_spud, a.has_well || b.has_well,
   a.has_production || b.has_production, a.has_claims || b.has_claims,
   a.has_drill_assay || b.has_drill_assay, a.has_resource || b.has_resource,
   a.has_study || b.has_study, a.has_deal || b.has_deal, a.has_policy || b.has_policy⟩

/-- Python `region.lower() == "texas"` over `(pj.get("region") or "").strip()`. -/
def regionIsTexas (p : CVPayload) : Bool :=
  strLower (strStrip (p.region.getD "")) == "texas"

/-- Python `commodity in ("ree", "uranium")` over the stripped lowered value. -/
def commodityIsReeU (p : CVPayload) : Bool :=
  let c := strLower (strStrip (p.commodity.getD ""))
  c == "ree" || c == "uranium"

/-- the stage flags one event switches on: the baseline AK-ish semantics,
the Texas semantics guarded by the region check, and the REE/U lifecycle
guarded by the commodity check, exactly as the loop body sets them. -/
def eventFlags (p : CVPayload) : ChainFlags :=
  let t := p.type
  let tx := regionIsTexas p
  let ree := commodityIsReeU p
  { has_permit := t == some "permit_filed" || (tx && optMem t TX_PERMIT_TYPES)
      || (ree && optMem t REE_U_CLAIMS_TYPES)
    has_spud := tx && optMem t TX_SPUD_TYPES
    has_well := optMem t ["well_record", "completion_reported"]
      || (tx && optMem t TX_WELL_TYPES) || (ree && optMem t REE_U_DRILL_TYPES)
    has_production := tx && optMem t TX_PRODUCTION_TYPES
    has_claims := ree && optMem t REE_U_CLAIMS_TYPES
    has_drill_assay := ree && optMem t REE_U_DRILL_TYPES
    has_resource := ree && optMem t REE_U_RESOURCE_TYPES
    has_study := ree && optMem t REE_U_STUDY_TYPES
    has_deal := ree && optMem t REE_U_DEAL_TYPES
    has_policy := ree && optMem t REE_U_POLICY_TYPES }

/-- the loop's `if not lineage_id: continue` (None and "" are falsy). -/
def eventLineage (e : CVEvent) : Option String :=
  match e.payload_json.lineage_id with
  | some s => if s = "" then none else some s
  | none => none

structure Bucket where
  flags : ChainFlags
  operator : Option String
  region : Option String
  permit_id : Option String
  field : Option String
  county : Option String
  ip_boed : Option ℚ
  commodity : Option String
  company : Option String
  project : Option String
  tickers : Option (List String)
  last_event_time : Option Int
deriving DecidableEq, Repr

def initBucket : Bucket :=
  ⟨noFlags, none, none, none, none, none, none, none, none, none, none, none⟩

def truthyTickers : Option (List String) → Bool
  | some l => !l.isEmpty
  | none => false

/-- the loop body of compute_chain_scores for one event of the bucket's
lineage. -/
def stepBucket (b : Bucket) (e : CVEvent) : Bucket :=
  let pj := e.payload_json
  let et := e.event_time <|> e.ingest_time
  let last :=
    match b.last_event_time, et with
    | none, _ => et
    | some l, some x => if x > l then some x else some l
    | some l, none => some l
  let ip :=
    match pj.ip_boed with
    | some q =>
      match b.ip_boed with
      | none => some q
      | some m => if q > m then some q else some m
    | none => b.ip_boed
  let ree := commodityIsReeU pj
  { flags := orFlags b.flags (eventFlags pj)
    operator := pyStrOr b.operator pj.operator
    region := pyStrOr b.region pj.region
    permit_id := pyStrOr b.permit_id pj.permit_id
    field := pyStrOr b.field pj.field
    county := pyStrOr b.county pj.county
    ip_boed := ip
    commodity := if ree then pyStrOr b.commodity pj.commodity else b.commodity
    company := if ree then pyStrOr b.company pj.company else b.company
    project := if ree then pyStrOr b.project pj.project else b.project
    tickers := if ree && (!truthyTickers b.tickers && truthyTickers pj.tickers)
      then pj.tickers else b.tickers
    last_event_time := last }

def bucketFor (events : List CVEvent) (l : String) : Bucket :=
  events.foldl (fun b e => if eventLineage e = some l then stepBucket b e else b) initBucket

/-- the flag accumulation alone (used to reason about scores). -/
def flagsFor (events : List CVEvent) (l : String) : ChainFlags :=
  events.foldl
    (fun f e => if eventLineage e = some l then orFlags f (eventFlags e.payload_json) else f)
    noFlags

/-- the staged additive scoring applied once per bucket. -/
def scoreOfFlags (f : ChainFlags) : ℚ :=
  (if f.has_permit then 0.3 else 0) + (if f.has_spud then 0.2 else 0)
    + (if f.has_well then 0.3 else 0) + (if f.has_production then 0.2 else 0)
    + (if f.has_resource then 0.15 else 0) + (if f.has_study then 0.2 else 0)
    + (if f.has_deal then 0.15 else 0) + (if f.has_policy then 0.1 else 0)

/-- Python round(x, 4); the chain scores are exact multiples of 1/10000, on
which rounding is the identity, so the half-up model coincides with
Python's banker rounding here. -/
def round4 (q : ℚ) : ℚ := (⌊q * 10000 + 1 / 2⌋ : ℚ) / 10000

/-- the score of one lineage as compute_chain_scores assigns it. -/
def scoreOf (events : List CVEvent) (l : String) : ℚ :=
  round4 (scoreOfFlags (flagsFor events l))

structure ChainRow where
  lineage_id : String
  score : ℚ
  has_permit : Bool
  has_spud : Bool
  has_well : Bool
  has_production : Bool
  has_claims : Bool
  has_drill_assay : Bool
  has_resource : Bool
  has_study : Bool
  has_deal : Bool
  has_policy : Bool
  operator : Option String
  region : Option String
  permit_id : Option String
  field : Option String
  county : Option String
  ip_boed : Option ℚ
  commodity : Option String
  company : Option String
  project : Option String
  tickers : Option (List String)
  last_event_time : Option Int
deriving DecidableEq, Repr

def mkRow (l : String) (b : Bucket) : ChainRow :=
  { lineage_id := l
    score := round4 (scoreOfFlags b.flags)
    has_permit := b.flags.has_permit
    has_spud := b.flags.has_spud
    has_well := b.flags.has_well
    has_production := b.flags.has_production
    has_claims := b.flags.has_claims
    has_drill_assay := b.flags.has_drill_assay
    has_resource := b.flags.has_resource
    has_study := b.flags.has_study
    has_deal := b.flags.has_deal
    has_policy := b.flags.has_policy
    operator := b.operator
    region := b.region
    permit_id := b.permit_id
    field := b.field
    county := b.county
    ip_boed := b.ip_boed
    commodity := b.commodity
    company := b.company
    project := b.project
    tickers := b.tickers
    last_event_time := b.last_event_time }

/-- lineages in first-occurrence order (dict insertion order). -/
def lineagesOf (events : List CVEvent) : List String :=
  (events.filterMap eventLineage).eraseDups

/-- stable descending insertion used to model list.sort(key=score,
reverse=True): a row moves ahead only of strictly lower scores, so rows of
equal score keep their original order. -/
def insertRowByScore (r : ChainRow) : List ChainRow → List ChainRow
  | [] => [r]
  | x :: xs => if r.score > x.score then r :: x :: xs else x :: insertRowByScore r xs

def sortRowsByScore (rows : List ChainRow) : List ChainRow :=
  rows.foldl (fun acc r => insertRowByScore r acc) []

/-- model of chain_view.compute_chain_scores. -/
def compute_chain_scores (events : List CVEvent) : List ChainRow :=
  sortRowsByScore ((lineagesOf events).map (fun l => mkRow l (bucketFor events l)))

/-- pointwise implication of stage flags. -/
def FlagsLe (a b : ChainFlags) : Prop :=
  (a.has_permit = true → b.has_permit = true)
    ∧ (a.has_spud = true → b.has_spud = true)
    ∧ (a.has_well = true → b.has_well = true)
    ∧ (a.has_production = true → b.has_production = true)
    ∧ (a.has_claims = true → b.has_claims = true)
    ∧ (a.has_drill_assay = true → b.has_drill_assay = true)
    ∧ (a.has_resource = true → b.has_resource = true)
    ∧ (a.has_study = true → b.has_study = true)
    ∧ (a.has_deal = true → b.has_deal = true)
    ∧ (a.has_policy = true → b.has_policy = true)

/-- first event of spec scenario S2: insider buy by Dana Morgan. -/
def s2Event1 : CVEvent :=
  { payload_json :=
      { emptyCVPayload with
        lineage_id := some "SEC:PERMIAN_RESOURCES"
        company := some "Permian Resources Corporation"
        type := some "insider_buy" }
    event_time := some 1769904000
    ingest_time := some 1769904000 }

/-- second event of spec scenario S2: insider buy by Ryan Cole, 14 days
later. The filer_name key is not read by compute_chain_scores at all, so
the payload model does not carry it. -/
def s2Event2 : CVEvent :=
  { payload_json :=
      { emptyCVPayload with
        lineage_id := some "SEC:PERMIAN_RESOURCES"
        company := some "Permian Resources Corporation"
        type := some "insider_buy" }
    event_time := some (1769904000 + 14 * 86400)
    ingest_time := some (1769904000 + 14 * 86400) }

/-- a permit_filed event used to instantiate the scoring theorems. -/
def permitEvent : CVEvent :=
  { payload_json :=
      { emptyCVPayload with
        lineage_id := some "AK:perm1"
        type := some "permit_filed"
        operator := some "Op"
        permit_id := some "P1" }
    event_time := some 1769904000
    ingest_time := some 1769904000 }

/-! ## Convergence engine (convergence.py)

Events are the same dicts the chain aggregator consumes (CVEvent); times
are UTC epoch seconds as Int (the code's _coerce_utc is the identity on
the aware-UTC datetimes this program stores). -/

def _CATEGORY_A_TYPES : List String :=
  ["lease_grant", "permit_filed", "permit_issued", "drilling_permit", "claims_staked",
   "exploration_permit"]

def _CATEGORY_B_TYPES : List String :=
  ["drill_result", "drill_assay", "completion_reported", "well_completion", "well_record"]

def _CATEGORY_C_TYPES : List String :=
  ["resource_estimate", "pea_published", "pfs_published", "feasibility_study"]

def _CATEGORY_D_TYPES : List String :=
  ["financing_closed", "financing_announced", "offtake_agreement"]

def _CATEGORY_E_TYPES : List String :=
  ["insider_buy", "institutional_13g", "institutional_13f"]

def _CATEGORY_F_TYPES : List String :=
  ["policy_designation", "policy_final_rule", "policy_nprm_open", "policy_comment_deadline",
   "congressional_trade_disclosure", "legislation_committee_advance"]

def _F_SUBSTRINGS : List String :=
  ["policy", "macro", "rule", "nprm", "congress", "legislation", "committee"]

def listStartsWith (needle hay : List Char) : Bool :=
  match needle, hay with
  | [], _ => true
  | n :: nt, h :: ht => decide (n = h) && listStartsWith nt ht
  | _ :: _, [] => false

def containsSub (needle : List Char) : List Char → Bool
  | [] => listStartsWith needle []
  | c :: rest => listStartsWith needle (c :: rest) || containsSub needle rest

/-- Python `needle in hay` on strings. -/
def strContains (hay needle : String) : Bool := containsSub needle.data hay.data

/-- split a character list on space runs (the only whitespace left after
the normalization map). -/
def wordsAux : List Char → List Char → List (List Char)
  | [], acc => if acc.isEmpty then [] else [acc.reverse]
  | c :: cs, acc =>
    if c = ' ' then
      (if acc.isEmpty then wordsAux cs [] else acc.reverse :: wordsAux cs [])
    else wordsAux cs (c :: acc)

/-- model of convergence._norm_name: lower-case, non-alphanumerics to
spaces, collapse whitespace, empty to None. -/
def _norm_name (v : Option String) : Option String :=
  match v with
  | none => none
  | some raw0 =>
    let raw := strStrip raw0
    if raw = "" then none
    else
      let cleaned := raw.data.map (fun c => if c.isAlphanum then c.toLower else ' ')
      let out := String.intercalate " " ((wordsAux cleaned []).map String.mk)
      if out = "" then none else some out

/-- model of convergence._company_keys. -/
def _company_keys (company_id company operator : Option String) : List String :=
  let idKeys :=
    match company_id with
    | some c => if strStrip c = "" then [] else ["company_id:" ++ strStrip c]
    | none => []
  let name := (_norm_name company).orElse (fun _ => _norm_name operator)
  idKeys ++ (match name with
    | some n => ["company_name:" ++ n]
    | none => [])

def lineageKey (lineage_id : Option String) : List String :=
  match lineage_id with
  | some s => if strStrip s = "" then [] else ["lineage:" ++ strStrip s]
  | none => []

/-- model of convergence._event_keys. -/
def _event_keys (p : CVPayload) : List String :=
  lineageKey p.lineage_id ++ _company_keys p.company_id p.company p.operator

/-- the chain row fields convergence._row_keys and apply_convergence read. -/
structure CRow where
  lineage_id : Option String
  company_id : Option String
  company : Option String
  operator : Option String
  last_event_time : Option Int
deriving DecidableEq, Repr

/-- model of convergence._row_keys. -/
def _row_keys (r : CRow) : List String :=
  lineageKey r.lineage_id ++ _company_keys r.company_id r.company r.operator

/-- model of convergence._event_categories; the Python set is represented
as a duplicate-free list in A..F order. -/
def _event_categories (p : CVPayload) : List String :=
  let t := strLower (strStrip (p.type.getD ""))
  if t = "" then []
  else
    (if _CATEGORY_A_TYPES.contains t then ["A"] else [])
      ++ (if _CATEGORY_B_TYPES.contains t then ["B"] else [])
      ++ (if _CATEGORY_C_TYPES.contains t then ["C"] else [])
      ++ (if _CATEGORY_D_TYPES.contains t then ["D"] else [])
      ++ (if _CATEGORY_E_TYPES.contains t then ["E"] else [])
      ++ (if _CATEGORY_F_TYPES.contains t
            || _F_SUBSTRINGS.any (fun k => strContains t k) then ["F"] else [])

/-- model of convergence._event_time. -/
def _event_time (e : CVEvent) : Option Int := e.event_time <|> e.ingest_time

/-- the (time, category) signal points _build_signal_index accumulates for
one key, in event order. -/
def signalsForKey (events : List CVEvent) (key : String) : List (Int × String) :=
  events.flatMap (fun e =>
    match _event_time e with
    | none => []
    | some dt =>
      let cats := _event_categories e.payload_json
      if cats.isEmpty then []
      else if (_event_keys e.payload_json).contains key then cats.map (fun c => (dt, c))
      else [])

/-- the latest signal time _build_signal_index records for one key. -/
def latestForKey (events : List CVEvent) (key : String) : Option Int :=
  events.foldl (fun acc e =>
    match _event_time e with
    | none => acc
    | some dt =>
      if (_event_categories e.payload_json).isEmpty then acc
      else if (_event_keys e.payload_json).contains key then
        match acc with
        | none => some dt
        | some m => if dt > m then some dt else some m
      else acc) none

/-- model of convergence._categories_within_window (the categories of the
signal points with window_start <= dt <= window_end). -/
def _categories_within_window (points : List (Int × String))
    (window_start window_end : Int) : List String :=
  (points.filter (fun p => window_start ≤ p.1 && p.1 ≤ window_end)).map Prod.snd

/-- the anchor apply_convergence computes for one row: the max of the
row's last_event_time and the latest signal time of any of its keys. -/
def anchorOf (events : List CVEvent) (r : CRow) : Option Int :=
  let keys := _row_keys r
  match keys.filterMap (latestForKey events) with
  | [] => r.last_event_time
  | c :: cs =>
    match r.last_event_time with
    | some a => some (cs.foldl max (max a c))
    | none => some (cs.foldl max c)

def insertStrSorted (x : String) : List String → List String
  | [] => [x]
  | y :: ys => if strLt x y then x :: y :: ys else y :: insertStrSorted x ys

def sortStrings (l : List String) : List String := l.foldr insertStrSorted []

def dedupAux : List String → List String → List String
  | [], _ => []
  | x :: xs, seen => if x ∈ seen then dedupAux xs seen else x :: dedupAux xs (x :: seen)

def dedupStr (l : List String) : List String := dedupAux l []

/-- Python sorted(set(...)) on strings. -/
def sortedSetStrings (l : List String) : List String := sortStrings (dedupStr l)

structure CRowOut where
  row : CRow
  convergence_score : Nat
  convergence_categories : List String
deriving DecidableEq, Repr

/-- the per-row body of apply_convergence. -/
def rowConv (events : List CVEvent) (window_days : Nat) (r : CRow) : CRowOut :=
  match anchorOf events r with
  | none => ⟨r, 0, []⟩
  | some anchor =>
    let window_start := anchor - (window_days : Int) * 86400
    let collected := (_row_keys r).flatMap
      (fun k => _categories_within_window (signalsForKey events k) window_start anchor)
    let cats := sortedSetStrings collected
    ⟨r, cats.length, cats⟩

/-- model of convergence.apply_convergence. -/
def apply_convergence (rows : List CRow) (events : List CVEvent)
    (window_days : Nat := 30) : List CRowOut :=
  rows.map (rowConv events window_days)

/-- concrete row used to instantiate the convergence theorem. -/
def convRow : CRow :=
  { lineage_id := some "TX:42-301-00001"
    company_id := none
    company := none
    operator := some "Lone Star Drilling"
    last_event_time := some 1770000000 }

/-- concrete event inside the window of `convRow`. -/
def convEvent : CVEvent :=
  { payload_json :=
      { emptyCVPayload with
        lineage_id := some "TX:42-301-00001"
        type := some "permit_filed"
        region := some "texas" }
    event_time := some (1770000000 - 86400)
    ingest_time := some (1770000000 - 86400) }

/-! ## Adapter date coercion (_parse_dt)

adapters/ree_uranium.py tries datetime.fromisoformat (after replacing "Z"
with "+00:00"), then strptime with "%Y-%m-%d", "%m/%d/%Y", "%d-%b-%Y";
adapters/sec_edgar.py tries the same ISO path, then "%Y-%m-%d",
"%m/%d/%Y", "%m-%d-%Y". Results are UTC epoch seconds; a naive parse is
taken at UTC (the deployment's local clock; strptime results get
tzinfo=utc explicitly). The ISO model covers the
date[T time[offset]] subset these adapters receive. -/

def daysInMonth (y m : Nat) : Nat :=
  if m = 2 then (if y % 4 = 0 && (decide (y % 100 ≠ 0) || y % 400 = 0) then 29 else 28)
  else if m ∈ [1, 3, 5, 7, 8, 10, 12] then 31
  else if m ∈ [4, 6, 9, 11] then 30
  else 0

def validYmd (y m d : Nat) : Bool :=
  decide (1 ≤ m) && decide (m ≤ 12) && decide (1 ≤ d) && decide (d ≤ daysInMonth y m)

/-- days since 1970-01-01 of a civil date (Hinnant's algorithm). -/
def daysFromCivil (y m d : Nat) : Int :=
  let y' : Int := if m ≤ 2 then (y : Int) - 1 else (y : Int)
  let era := (if 0 ≤ y' then y' else y' - 399) / 400
  let yoe := y' - era * 400
  let mp : Int := if m > 2 then (m : Int) - 3 else (m : Int) + 9
  let doy := (153 * mp + 2) / 5 + (d : Int) - 1
  let doe := yoe * 365 + yoe / 4 - yoe / 100 + doy
  era * 146097 + doe - 719468

/-- UTC epoch seconds of a wall-clock datetime at the given UTC offset in
minutes. -/
def epochSecs (y m d h mi s : Nat) (offsetMinutes : Int) : Int :=
  daysFromCivil y m d * 86400 + ((h * 3600 + mi * 60 + s : Nat) : Int) - offsetMinutes * 60

/-- read exactly n digits. -/
def readDigits : Nat → Nat → List Char → Option (Nat × List Char)
  | 0, acc, cs => some (acc, cs)
  | n + 1, acc, cs =>
    match cs with
    | c :: rest =>
      if c.isDigit then readDigits n (acc * 10 + (c.toNat - 48)) rest else none
    | [] => none

/-- read one or two digits, greedily (strptime %m, %d). -/
def read12 : List Char → Option (Nat × List Char)
  | c :: c2 :: rest =>
    if c.isDigit then
      (if c2.isDigit then some ((c.toNat - 48) * 10 + (c2.toNat - 48), rest)
       else some (c.toNat - 48, c2 :: rest))
    else none
  | [c] => if c.isDigit then some (c.toNat - 48, []) else none
  | [] => none

def expectChar (c : Char) : List Char → Option (List Char)
  | x :: rest => if x = c then some rest else none
  | [] => none

/-- str.replace("Z", "+00:00"). -/
def replaceZ (s : String) : String :=
  String.mk (s.data.flatMap (fun c => if c = 'Z' then ['+', '0', '0', ':', '0', '0'] else [c]))

/-- model of datetime.fromisoformat on the date[T time[offset]] subset,
followed by conversion to UTC (a naive result is taken at UTC). -/
def parseIso (s : String) : Option Int := do
  let (y, r1) ← readDigits 4 0 s.data
  let r2 ← expectChar '-' r1
  let (m, r3) ← readDigits 2 0 r2
  let r4 ← expectChar '-' r3
  let (d, r5) ← readDigits 2 0 r4
  if !validYmd y m d then none
  else
    match r5 with
    | [] => some (epochSecs y m d 0 0 0 0)
    | sep :: r6 =>
      if sep = 'T' ∨ sep = ' ' then do
        let (h, r7) ← readDigits 2 0 r6
        let r8 ← expectChar ':' r7
        let (mi, r9) ← readDigits 2 0 r8
        let (sec, r10) ←
          (match r9 with
           | ':' :: rest => do
              let (s2, ra) ← readDigits 2 0 rest
              match ra with
              | '.' :: rb =>
                if (rb.takeWhile Char.isDigit).isEmpty then none
                else some (s2, rb.dropWhile Char.isDigit)
              | _ => some (s2, ra)
           | _ => some (0, r9))
        if h ≥ 24 ∨ mi ≥ 60 ∨ sec ≥ 60 then none
        else
          match r10 with
          | [] => some (epochSecs y m d h mi sec 0)
          | sign :: r11 =>
            if sign = '+' ∨ sign = '-' then do
              let (oh, r12) ← readDigits 2 0 r11
              let r13 ← expectChar ':' r12
              let (om, r14) ← readDigits 2 0 r13
              if r14 = [] ∧ oh < 24 ∧ om < 60 then
                some (epochSecs y m d h mi sec
                  ((if sign = '-' then -1 else 1) * ((oh : Int) * 60 + om)))
              else none
            else none
      else none

/-- strptime "%Y-%m-%d" (year exactly 4 digits, month/day 1-2 digits,
validated), taken at UTC. -/
def parseFmtYmdDash (s : String) : Option Int := do
  let (y, r1) ← readDigits 4 0 s.data
  let r2 ← expectChar '-' r1
  let (m, r3) ← read12 r2
  let r4 ← expectChar '-' r3
  let (d, r5) ← read12 r4
  if r5 = [] ∧ validYmd y m d then some (epochSecs y m d 0 0 0 0) else none

/-- strptime "%m/%d/%Y". -/
def parseFmtMdySlash (s : String) : Option Int := do
  let (m, r1) ← read12 s.data
  let r2 ← expectChar '/' r1
  let (d, r3) ← read12 r2
  let r4 ← expectChar '/' r3
  let (y, r5) ← readDigits 4 0 r4
  if r5 = [] ∧ validYmd y m d then some (epochSecs y m d 0 0 0 0) else none

/-- strptime "%m-%d-%Y" (sec_edgar only). -/
def parseFmtMdyDash (s : String) : Option Int := do
  let (m, r1) ← read12 s.data
  let r2 ← expectChar '-' r1
  let (d, r3) ← read12 r2
  let r4 ← expectChar '-' r3
  let (y, r5) ← readDigits 4 0 r4
  if r5 = [] ∧ validYmd y m d then some (epochSecs y m d 0 0 0 0) else none

def monthAbbrevNum (c1 c2 c3 : Char) : Option Nat :=
  let t := String.mk [c1.toLower, c2.toLower, c3.toLower]
  (([("jan", 1), ("feb", 2), ("mar", 3), ("apr", 4), ("may", 5), ("jun", 6), ("jul", 7),
     ("aug", 8), ("sep", 9), ("oct", 10), ("nov", 11),
     ("dec", 12)].find? (fun p => p.1 == t)).map Prod.snd)

/-- strptime "%d-%b-%Y" (ree_uranium only; %b is case-insensitive). -/
def parseFmtDbY (s : String) : Option Int := do
  let (d, r1) ← read12 s.data
  let r2 ← expectChar '-' r1
  match r2 with
  | c1 :: c2 :: c3 :: r3 => do
    let m ← monthAbbrevNum c1 c2 c3
    let r4 ← expectChar '-' r3
    let (y, r5) ← readDigits 4 0 r4
    if r5 = [] ∧ validYmd y m d then some (epochSecs y m d 0 0 0 0) else none
  | _ => none

/-- model of ree_uranium._parse_dt on strings. -/
def ree_parse_dt (value : String) : Option Int :=
  if value = "" then none
  else
    let s := replaceZ (strStrip value)
    match parseIso s with
    | some t => some t
    | none =>
      match parseFmtYmdDash s with
      | some t => some t
      | none =>
        match parseFmtMdySlash s with
        | some t => some t
        | none => parseFmtDbY s

/-- model of sec_edgar._parse_dt on strings. -/
def sec_parse_dt (value : String) : Option Int :=
  if value = "" then none
  else
    let s := replaceZ (strStrip value)
    match parseIso s with
    | some t => some t
    | none =>
      match parseFmtYmdDash s with
      | some t => some t
      | none =>
        match parseFmtMdySlash s with
        | some t => some t
        | none => parseFmtMdyDash s

/-! ## Retrying HTTP substrate (sec_edgar._http_get_json_with_retry and
_http_get_text_with_retry)

The network is an oracle from attempt index to outcome; pacing and backoff
sleeps do not affect the returned value. A JSON attempt either returns a
decoded payload, fails JSON decoding, raises HTTPError with a status, or
raises a transport/timeout error (URLError, TimeoutError); a text attempt
has no decode failure. -/

inductive JsonAttempt where
  | ok (v : Json)
  | decodeFail
  | httpErr (code : Nat)
  | transportErr
deriving DecidableEq, Repr

inductive TextAttempt where
  | ok (body : String)
  | httpErr (code : Nat)
  | transportErr
deriving DecidableEq, Repr

def _RETRYABLE_HTTP_STATUS : List Nat := [429, 500, 502, 503, 504]

def retryableStatus (c : Nat) : Bool := _RETRYABLE_HTTP_STATUS.contains c

/-- the loop `for attempt in range(max_retries + 1)`: fuel counts the
iterations remaining including the current one, so the code's
`attempt < max_retries` is `1 ≤ fuel` after peeling the current
iteration. An exhausted loop returns the empty dict. -/
def jsonAttemptLoop (oracle : Nat → JsonAttempt) : Nat → Nat → Json
  | _, 0 => Json.objNil
  | attempt, fuel + 1 =>
    match oracle attempt with
    | .ok v => v
    | .httpErr c =>
      if retryableStatus c ∧ 1 ≤ fuel then jsonAttemptLoop oracle (attempt + 1) fuel
      else Json.objNil
    | .decodeFail =>
      if 1 ≤ fuel then jsonAttemptLoop oracle (attempt + 1) fuel else Json.objNil
    | .transportErr =>
      if 1 ≤ fuel then jsonAttemptLoop oracle (attempt + 1) fuel else Json.objNil

def http_get_json_with_retry (oracle : Nat → JsonAttempt) (max_retries : Nat) : Json :=
  jsonAttemptLoop oracle 0 (max_retries + 1)

def textAttemptLoop (oracle : Nat → TextAttempt) : Nat → Nat → String
  | _, 0 => ""
  | attempt, fuel + 1 =>
    match oracle attempt with
    | .ok body => body
    | .httpErr c =>
      if retryableStatus c ∧ 1 ≤ fuel then textAttemptLoop oracle (attempt + 1) fuel
      else ""
    | .transportErr =>
      if 1 ≤ fuel then textAttemptLoop oracle (attempt + 1) fuel else ""

def http_get_text_with_retry (oracle : Nat → TextAttempt) (max_retries : Nat) : String :=
  textAttemptLoop oracle 0 (max_retries + 1)

/-! ## Form-4 XML transaction extraction (sec_edgar)

_extract_form4_xml works on raw text with case-sensitive containment
checks and case-insensitive lazy regex searches; ET.fromstring is modelled
by a tokenizer and a recursive-descent well-formedness check (mismatched
or unclosed tags fail, as ET.ParseError does). Queries only use local
names, matching the {*} wildcard paths in the code. -/

def findSub (needle : List Char) : List Char → Option Nat
  | [] => if needle.isEmpty then some 0 else none
  | c :: rest =>
    if listStartsWith needle (c :: rest) then some 0 else (findSub needle rest).map (· + 1)

def lowerL (l : List Char) : List Char := l.map Char.toLower

/-- index of the first case-insensitive occurrence. -/
def findSubCI (needle hay : List Char) : Option Nat := findSub (lowerL needle) (lowerL hay)

/-- the lazy regex `a[\s\S]*?b` (IGNORECASE): the slice from the first
occurrence of `a` through the earliest following `b`. -/
def extractRegion (a b : String) (hay : List Char) : Option (List Char) :=
  match findSubCI a.data hay with
  | none => none
  | some i =>
    match findSubCI b.data (hay.drop (i + a.data.length)) with
    | none => none
    | some j => some ((hay.drop i).take (a.data.length + j + b.data.length))

/-- group 1 of the lazy regex `a([\s\S]*?)b` (IGNORECASE). -/
def extractBetween (a b : String) (hay : List Char) : Option (List Char) :=
  match findSubCI a.data hay with
  | none => none
  | some i =>
    let t := hay.drop (i + a.data.length)
    match findSubCI b.data t with
    | none => none
    | some j => some (t.take j)

def startsWithLt : List Char → Bool
  | '<' :: _ => true
  | _ => false

/-- model of sec_edgar._extract_form4_xml. -/
def _extract_form4_xml (text : String) : Option String :=
  if text = "" then none
  else
    let s := strStrip text
    let sd := s.data
    let finalSearch : Option String :=
      match extractRegion "<ownershipDocument" "</ownershipDocument>" sd with
      | some r => some (String.mk r)
      | none => none
    if strContains s "<ownershipDocument" && startsWithLt sd then
      match extractRegion "<ownershipDocument" "</ownershipDocument>" sd with
      | some r => some (String.mk r)
      | none => some s
    else
      match extractBetween "<XML>" "</XML>" sd with
      | some inner =>
        let chunk := strStrip (String.mk inner)
        if strContains chunk "<ownershipDocument" then
          match extractRegion "<ownershipDocument" "</ownershipDocument>" chunk.data with
          | some r => some (String.mk r)
          | none => some chunk
        else finalSearch
      | none => finalSearch

inductive XTok where
  | openTag (name : String) (selfClose : Bool)
  | closeTag (name : String)
  | textTok (s : String)
deriving DecidableEq, Repr

/-- tokenizer for the XML subset in SEC filings: prolog and doctype or
comment blocks are skipped, tags carry their (possibly prefixed) name,
attributes are dropped, unterminated tags fail. Fuel bounds the recursion
by the input length. -/
def tokenizeAux (fuel : Nat) (cs : List Char) : Option (List XTok) :=
  match fuel, cs with
  | _, [] => some []
  | 0, _ :: _ => none
  | fuel + 1, '<' :: rest =>
    match rest with
    | '?' :: r2 =>
      match findSub ['?', '>'] r2 with
      | none => none
      | some j => tokenizeAux fuel (r2.drop (j + 2))
    | '!' :: r2 =>
      match findSub ['>'] r2 with
      | none => none
      | some j => tokenizeAux fuel (r2.drop (j + 1))
    | '/' :: r2 =>
      match findSub ['>'] r2 with
      | none => none
      | some j =>
        match tokenizeAux fuel (r2.drop (j + 1)) with
        | none => none
        | some toks => some (XTok.closeTag (strStrip (String.mk (r2.take j))) :: toks)
    | _ =>
      match findSub ['>'] rest with
      | none => none
      | some j =>
        let inner := rest.take j
        let selfClose := inner.getLast? = some '/'
        let inner2 := if selfClose then inner.dropLast else inner
        let name := String.mk (inner2.takeWhile (fun c => !isPySpace c && c ≠ '/'))
        match tokenizeAux fuel (rest.drop (j + 1)) with
        | none => none
        | some toks => some (XTok.openTag name selfClose :: toks)
  | fuel + 1, c :: rest =>
    let txt := (c :: rest).takeWhile (fun x => x ≠ '<')
    let rest2 := (c :: rest).dropWhile (fun x => x ≠ '<')
    match tokenizeAux fuel rest2 with
    | none => none
    | some toks => some (XTok.textTok (String.mk txt) :: toks)

/-- element tree in first-child / next-sibling form. -/
inductive XNode where
  | nilN : XNode
  | elemN (name : String) (text : Option String) (child sib : XNode) : XNode
deriving DecidableEq, Repr

/-- parse a sibling sequence; stops before a close tag. The element text is
the text token directly after its open tag, as ET records it. -/
def parseSeq (fuel : Nat) (toks : List XTok) : Option (XNode × List XTok) :=
  match fuel, toks with
  | 0, _ => none
  | _ + 1, [] => some (.nilN, [])
  | _ + 1, XTok.closeTag _ :: _ => some (.nilN, toks)
  | fuel + 1, XTok.textTok _ :: rest => parseSeq fuel rest
  | fuel + 1, XTok.openTag name true :: rest =>
    match parseSeq fuel rest with
    | none => none
    | some (sib, r2) => some (.elemN name none .nilN sib, r2)
  | fuel + 1, XTok.openTag name false :: rest =>
    let txt := match rest with
      | XTok.textTok t :: _ => some t
      | _ => none
    match parseSeq fuel rest with
    | none => none
    | some (child, r2) =>
      match r2 with
      | XTok.closeTag cname :: r3 =>
        if cname = name then
          match parseSeq fuel r3 with
          | none => none
          | some (sib, r4) => some (.elemN name txt child sib, r4)
        else none
      | _ => none

/-- model of ET.fromstring: one root element, all input consumed,
well-formed nesting; anything else is a parse error (None). -/
def parseXml (s : String) : Option XNode :=
  match tokenizeAux (s.length + 1) s.data with
  | none => none
  | some toks =>
    match parseSeq (toks.length + 1) toks with
    | some (XNode.elemN nm tx ch XNode.nilN, []) => some (XNode.elemN nm tx ch XNode.nilN)
    | _ => none

/-- the local part of a possibly prefixed tag name (the {*} wildcard in the
code's paths matches any namespace). -/
def localName (s : String) : String :=
  String.mk ((s.data.reverse.takeWhile (fun c => c ≠ ':')).reverse)

/-- every element of a sibling chain together with all descendants, in
document order, each with its sibling pointer cleared. -/
def allElems : XNode → List XNode
  | .nilN => []
  | .elemN nm tx ch sib => XNode.elemN nm tx ch XNode.nilN :: (allElems ch ++ allElems sib)

def childOf : XNode → XNode
  | .elemN _ _ ch _ => ch
  | .nilN => .nilN

def nodeLocalName : XNode → String
  | .elemN nm _ _ _ => localName nm
  | .nilN => ""

/-- findall(".//{*}target"): descendants of root with the local name. -/
def findAllDescNamed (root : XNode) (target : String) : List XNode :=
  (allElems (childOf root)).filter (fun n => nodeLocalName n == target)

def firstInChain : XNode → String → Option XNode
  | .nilN, _ => none
  | .elemN nm tx ch sib, target =>
    if localName nm == target then some (.elemN nm tx ch sib)
    else firstInChain sib target

def firstChildNamed (n : XNode) (target : String) : Option XNode :=
  firstInChain (childOf n) target

/-- split on any Python whitespace. -/
def wordsWsAux : List Char → List Char → List (List Char)
  | [], acc => if acc.isEmpty then [] else [acc.reverse]
  | c :: cs, acc =>
    if isPySpace c then
      (if acc.isEmpty then wordsWsAux cs [] else acc.reverse :: wordsWsAux cs [])
    else wordsWsAux cs (c :: acc)

/-- model of sec_edgar._clean_str on an optional string. -/
def _clean_str (v : Option String) : Option String :=
  match v with
  | none => none
  | some s0 =>
    let s := String.intercalate " " ((wordsWsAux s0.data []).map String.mk)
    if s = "" then none else some s

/-- model of sec_edgar._xml_text along a {*} path: walk first matching
children, then clean the text. -/
def xmlTextPath : XNode → List String → Option String
  | n, [] =>
    match n with
    | .elemN _ tx _ _ => _clean_str tx
    | .nilN => none
  | n, t :: rest =>
    match firstChildNamed n t with
    | none => none
    | some c => xmlTextPath c rest

def xmlTextOpt (n : Option XNode) (path : List String) : Option String :=
  match n with
  | none => none
  | some node => xmlTextPath node path

/-- model of sec_edgar._truthy. -/
def _truthy (v : Option String) : Bool :=
  (strLower (strStrip (v.getD ""))).data ∈ ["1", "true", "t", "yes", "y"].map String.data

def natOfDigits (l : List Char) : Nat := l.foldl (fun a c => a * 10 + (c.toNat - 48)) 0

/-- decimal parser standing for Python float() on the plain decimal values
in filings (sign, digits, optional fraction). -/
def parseDecimal (s0 : String) : Option ℚ :=
  let cs := (strStrip s0).data
  let (sgn, cs2) : ℚ × List Char :=
    match cs with
    | '-' :: r => (-1, r)
    | '+' :: r => (1, r)
    | _ => (1, cs)
  let ip := cs2.takeWhile Char.isDigit
  let rest := cs2.dropWhile Char.isDigit
  match rest with
  | [] => if ip.isEmpty then none else some (sgn * (natOfDigits ip : ℚ))
  | '.' :: fr =>
    let fd := fr.takeWhile Char.isDigit
    let after := fr.dropWhile Char.isDigit
    if after.isEmpty && !(ip.isEmpty && fd.isEmpty) then
      some (sgn * ((natOfDigits ip : ℚ) + (natOfDigits fd : ℚ) / (10 ^ fd.length : ℚ)))
    else none
  | _ => none

/-- model of sec_edgar._as_float on optional strings. -/
def _as_float (v : Option String) : Option ℚ :=
  match v with
  | none => none
  | some s => if strStrip s = "" then none else parseDecimal s

/-- Python round(x, 2) on the exact products formed here. -/
def round2 (q : ℚ) : ℚ := (⌊q * 100 + 1 / 2⌋ : ℚ) / 100

/-- model of sec_edgar._classify_form4_transaction. -/
def _classify_form4_transaction (code : Option String) : Option String × Option String :=
  let key := strUpper (strStrip (code.getD ""))
  if key = "P" then (some "insider_buy", some "purchase")
  else if key = "S" then (some "insider_sell", some "sale")
  else if key = "M" then (some "insider_option_exercise", some "exercise")
  else (none, none)

structure OwnerInfo where
  filer_name : Option String
  relationship : Option String
  officer_title : Option String
  co_reporting_owner_count : Option Nat
deriving DecidableEq, Repr

/-- model of sec_edgar._parse_reporting_owner (the empty dict of the
no-owner case becomes all-absent fields). -/
def _parse_reporting_owner (root : XNode) : OwnerInfo :=
  match findAllDescNamed root "reportingOwner" with
  | [] => ⟨none, none, none, none⟩
  | first :: others =>
    let rel := firstChildNamed first "reportingOwnerRelationship"
    let is_director := _truthy (xmlTextOpt rel ["isDirector"])
    let is_officer := _truthy (xmlTextOpt rel ["isOfficer"])
    let is_ten_pct := _truthy (xmlTextOpt rel ["isTenPercentOwner"])
    let officer_title := xmlTextOpt rel ["officerTitle"]
    let is_other := _truthy (xmlTextOpt rel ["isOther"])
    let other_text := xmlTextOpt rel ["otherText"]
    let rel_parts :=
      (if is_officer then ["officer"] else [])
        ++ (if is_director then ["director"] else [])
        ++ (if is_ten_pct then ["10% owner"] else [])
        ++ (match other_text, is_other with
            | some t, true => [t]
            | _, _ => [])
    let rel_parts2 := if rel_parts.isEmpty && is_other then ["other"] else rel_parts
    { filer_name := xmlTextPath first ["reportingOwnerId", "rptOwnerName"]
      relationship :=
        if rel_parts2.isEmpty then none else some (String.intercalate "/" rel_parts2)
      officer_title := officer_title
      co_reporting_owner_count := some others.length }

structure F4Row where
  event_type : String
  transaction_type : Option String
  transaction_code : Option String
  transaction_date : Option String
  shares : Option ℚ
  price_per_share : Option ℚ
  total_value : Option ℚ
  acquired_disposed_code : Option String
  security_title : Option String
  underlying_security_title : Option String
  direct_or_indirect : Option String
  bucket : String
  filer_name : Option String
  relationship : Option String
  officer_title : Option String
  co_reporting_owner_count : Option Nat
deriving DecidableEq, Repr

/-- the per-document row extraction of parse_form4_transactions once the
XML parsed. -/
def parseForm4Rows (root : XNode) : List F4Row :=
  let owner := _parse_reporting_owner root
  let txNodes :=
    (findAllDescNamed root "nonDerivativeTransaction").map (fun n => ("non_derivative", n))
      ++ (findAllDescNamed root "derivativeTransaction").map (fun n => ("derivative", n))
  txNodes.filterMap (fun bn =>
        let tx := bn.2
        let transaction_code := xmlTextPath tx ["transactionCoding", "transactionCode"]
        match _classify_form4_transaction transaction_code with
        | (some event_type, transaction_type) =>
          let shares := _as_float
            (xmlTextPath tx ["transactionAmounts", "transactionShares", "value"])
          let price := _as_float
            (xmlTextPath tx ["transactionAmounts", "transactionPricePerShare", "value"])
          let total_value :=
            match shares, price with
            | some sh, some pr => some (round2 (sh * pr))
            | _, _ => none
          some
            { event_type := event_type
              transaction_type := transaction_type
              transaction_code := transaction_code
              transaction_date := xmlTextPath tx ["transactionDate", "value"]
              shares := shares
              price_per_share := price
              total_value := total_value
              acquired_disposed_code := xmlTextPath tx
                ["transactionAmounts", "transactionAcquiredDisposedCode", "value"]
              security_title := xmlTextPath tx ["securityTitle", "value"]
              underlying_security_title := xmlTextPath tx
                ["underlyingSecurity", "underlyingSecurityTitle", "value"]
              direct_or_indirect := xmlTextPath tx
                ["ownershipNature", "directOrIndirectOwnership", "value"]
              bucket := bn.1
              filer_name := owner.filer_name
              relationship := owner.relationship
              officer_title := owner.officer_title
              co_reporting_owner_count := owner.co_reporting_owner_count }
        | (none, _) => none)

/-- the try ET.fromstring / except ParseError step. -/
def parseForm4FromXml (xml : String) : List F4Row :=
  match parseXml xml with
  | none => []
  | some root => parseForm4Rows root

/-- model of sec_edgar.parse_form4_transactions. -/
def parse_form4_transactions (text : String) : List F4Row :=
  match _extract_form4_xml text with
  | none => []
  | some xml => parseForm4FromXml xml

/-- a document whose extracted XML is ill-formed (mismatched close tag). -/
def badForm4Doc : String := "<ownershipDocument><a></b></ownershipDocument>"

/-- a minimal well-formed filing with one purchase transaction. -/
def sampleForm4Doc : String :=
  "<ownershipDocument><reportingOwner><reportingOwnerId><rptOwnerName>Dana Morgan"
    ++ "</rptOwnerName></reportingOwnerId><reportingOwnerRelationship><isDirector>1"
    ++ "</isDirector></reportingOwnerRelationship></reportingOwner>"
    ++ "<nonDerivativeTable><nonDerivativeTransaction><transactionCoding>"
    ++ "<transactionCode>P</transactionCode></transactionCoding>"
    ++ "</nonDerivativeTransaction></nonDerivativeTable></ownershipDocument>"

-- ===================== THEOREMS =====================

theorem keyPerm_refl : ∀ p : Json, KeyPerm p p := by
  intro p
  induction p with
  | null => exact .null
  | jbool b => exact .jbool b
  | jnum n => exact .jnum n
  | jstr s => exact .jstr s
  | arrNil => exact .arrNil
  | arrCons h t ih1 ih2 => exact .arrCons ih1 ih2
  | objNil => exact .objNil
  | objCons k v t ih1 ih2 => exact .objCons ih1 ih2 (.here t)

theorem topKeys_objInsert {k : String} {v t u : Json} (h : ObjInsert k v t u) :
    List.Perm (topKeys u) (k :: topKeys t) := by
  induction h with
  | here t => exact List.Perm.refl _
  | there k2 v2 t t' h ih =>
    exact List.Perm.trans (List.Perm.cons k2 ih) (List.Perm.swap k k2 (topKeys t))

theorem keyPerm_topKeys {p q : Json} (h : KeyPerm p q) :
    List.Perm (topKeys p) (topKeys q) := by
  induction h with
  | null => exact List.Perm.refl _
  | jbool b => exact List.Perm.refl _
  | jnum n => exact List.Perm.refl _
  | jstr s => exact List.Perm.refl _
  | arrNil => exact List.Perm.refl _
  | arrCons h1 h2 ih1 ih2 => exact List.Perm.refl _
  | objNil => exact List.Perm.refl _
  | @objCons k v v' t t' u hv ht hins ihv iht =>
    exact List.Perm.trans (List.Perm.cons k iht) (topKeys_objInsert hins).symm

theorem strLt_iff (a b : String) : strLt a b = true ↔ a < b := by
  unfold strLt
  rw [decide_eq_true_iff]
  exact String.lt_iff_toList_lt.symm

theorem strLt_false_iff (a b : String) : strLt a b = false ↔ ¬ a < b := by
  unfold strLt
  rw [decide_eq_false_iff_not]
  exact not_congr String.lt_iff_toList_lt.symm

theorem sortInsertField_comm (k1 k2 : String) (v1 v2 : Json) (hne : k1 ≠ k2) :
    ∀ l : Json, sortInsertField k1 v1 (sortInsertField k2 v2 l)
      = sortInsertField k2 v2 (sortInsertField k1 v1 l) := by
  have hbool : ∀ a b : String, a < b → strLt a b = true ∧ strLt b a = false := by
    intro a b h
    exact ⟨(strLt_iff a b).mpr h, (strLt_false_iff b a).mpr (lt_asymm h)⟩
  intro l
  induction l with
  | objCons k v t ihv iht =>
    by_cases hp2 : k2 < k
    · by_cases hp1 : k1 < k
      · rcases hne.lt_or_lt with h12 | h21
        · obtain ⟨b12, b21⟩ := hbool _ _ h12
          simp [sortInsertField, (hbool _ _ hp2).1, (hbool _ _ hp1).1, b12, b21]
        · obtain ⟨b21, b12⟩ := hbool _ _ h21
          simp [sortInsertField, (hbool _ _ hp2).1, (hbool _ _ hp1).1, b12, b21]
      · have h12 : ¬ k1 < k2 := fun h => hp1 (h.trans hp2)
        have b12 : strLt k1 k2 = false := (strLt_false_iff _ _).mpr h12
        have b1k : strLt k1 k = false := (strLt_false_iff _ _).mpr hp1
        simp [sortInsertField, (hbool _ _ hp2).1, b12, b1k]
    · by_cases hp1 : k1 < k
      · have h21 : ¬ k2 < k1 := fun h => hp2 (h.trans hp1)
        have b21 : strLt k2 k1 = false := (strLt_false_iff _ _).mpr h21
        have b2k : strLt k2 k = false := (strLt_false_iff _ _).mpr hp2
        simp [sortInsertField, (hbool _ _ hp1).1, b21, b2k]
      · have b2k : strLt k2 k = false := (strLt_false_iff _ _).mpr hp2
        have b1k : strLt k1 k = false := (strLt_false_iff _ _).mpr hp1
        simp [sortInsertField, b2k, b1k, iht]
  | null =>
    rcases hne.lt_or_lt with h | h
    · obtain ⟨b1, b2⟩ := hbool _ _ h
      simp [sortInsertField, b1, b2]
    · obtain ⟨b1, b2⟩ := hbool _ _ h
      simp [sortInsertField, b1, b2]
  | jbool b =>
    rcases hne.lt_or_lt with h | h
    · obtain ⟨b1, b2⟩ := hbool _ _ h
      simp [sortInsertField, b1, b2]
    · obtain ⟨b1, b2⟩ := hbool _ _ h
      simp [sortInsertField, b1, b2]
  | jnum n =>
    rcases hne.lt_or_lt with h | h
    · obtain ⟨b1, b2⟩ := hbool _ _ h
      simp [sortInsertField, b1, b2]
    · obtain ⟨b1, b2⟩ := hbool _ _ h
      simp [sortInsertField, b1, b2]
  | jstr s =>
    rcases hne.lt_or_lt with h | h
    · obtain ⟨b1, b2⟩ := hbool _ _ h
      simp [sortInsertField, b1, b2]
    · obtain ⟨b1, b2⟩ := hbool _ _ h
      simp [sortInsertField, b1, b2]
  | arrNil =>
    rcases hne.lt_or_lt with h | h
    · obtain ⟨b1, b2⟩ := hbool _ _ h
      simp [sortInsertField, b1, b2]
    · obtain ⟨b1, b2⟩ := hbool _ _ h
      simp [sortInsertField, b1, b2]
  | arrCons a b iha ihb =>
    rcases hne.lt_or_lt with h | h
    · obtain ⟨b1, b2⟩ := hbool _ _ h
      simp [sortInsertField, b1, b2]
    · obtain ⟨b1, b2⟩ := hbool _ _ h
      simp [sortInsertField, b1, b2]
  | objNil =>
    rcases hne.lt_or_lt with h | h
    · obtain ⟨b1, b2⟩ := hbool _ _ h
      simp [sortInsertField, b1, b2]
    · obtain ⟨b1, b2⟩ := hbool _ _ h
      simp [sortInsertField, b1, b2]

theorem normalizeJson_objInsert {k : String} {v : Json} :
    ∀ {t u : Json}, ObjInsert k v t u → k ∉ topKeys t →
      normalizeJson u = sortInsertField k (normalizeJson v) (normalizeJson t) := by
  intro t u h
  induction h with
  | here t => intro _; rfl
  | there k2 v2 t t' h ih =>
    intro hk
    have hkne : k ≠ k2 := by
      intro he
      exact hk (by simp [topKeys, he])
    have hkt : k ∉ topKeys t := fun hm => hk (by simp [topKeys, hm])
    calc normalizeJson (Json.objCons k2 v2 t')
        = sortInsertField k2 (normalizeJson v2) (normalizeJson t') := rfl
      _ = sortInsertField k2 (normalizeJson v2)
            (sortInsertField k (normalizeJson v) (normalizeJson t)) := by rw [ih hkt]
      _ = sortInsertField k (normalizeJson v)
            (sortInsertField k2 (normalizeJson v2) (normalizeJson t)) :=
          (sortInsertField_comm k k2 (normalizeJson v) (normalizeJson v2) hkne
            (normalizeJson t)).symm
      _ = sortInsertField k (normalizeJson v) (normalizeJson (Json.objCons k2 v2 t)) := rfl

theorem keyPerm_normalizeJson {p q : Json} (h : KeyPerm p q) (hd : nodupKeys p = true) :
    normalizeJson p = normalizeJson q := by
  induction h with
  | null => rfl
  | jbool b => rfl
  | jnum n => rfl
  | jstr s => rfl
  | arrNil => rfl
  | arrCons h1 h2 ih1 ih2 =>
    simp only [nodupKeys, Bool.and_eq_true] at hd
    simp only [normalizeJson, ih1 hd.1, ih2 hd.2]
  | objNil => rfl
  | @objCons k v v' t t' u hv ht hins ihv iht =>
    simp only [nodupKeys, Bool.and_eq_true, decide_eq_true_eq] at hd
    obtain ⟨⟨hkt, hnv⟩, hnt⟩ := hd
    have hkt' : k ∉ topKeys t' := fun hm => hkt ((keyPerm_topKeys ht).mem_iff.mpr hm)
    calc normalizeJson (Json.objCons k v t)
        = sortInsertField k (normalizeJson v) (normalizeJson t) := rfl
      _ = sortInsertField k (normalizeJson v') (normalizeJson t') := by
          rw [ihv hnv, iht hnt]
      _ = normalizeJson u := (normalizeJson_objInsert hins hkt').symm

/-- C2: for every JSON-like payload, content_hash is invariant under
reordering object keys at any nesting level (Python dicts never repeat a
key, which the `nodupKeys` hypothesis captures); reordering the elements of
an array inside a payload changes the hash, witnessed by the concrete pair
`arrayPayloadA`/`arrayPayloadB`; and the hash is the SHA-256 hex digest of
the UTF-8 canonical JSON encoding produced by `stable_json_dumps` (keys
sorted at every level, array order preserved, compact separators, non-ASCII
unescaped). -/
theorem C2_content_hash_stability :
    (∀ p q : Json, nodupKeys p = true → KeyPerm p q → content_hash p = content_hash q)
      ∧ content_hash arrayPayloadA ≠ content_hash arrayPayloadB
      ∧ (∀ p : Json, content_hash p = sha256_hex (stable_json_dumps p)) := by
  refine ⟨?_, ?_, fun _ => rfl⟩
  · intro p q hd hperm
    unfold content_hash stable_json_dumps
    rw [keyPerm_normalizeJson hperm hd]
  · decide

theorem keyPermPayload_perm : KeyPerm keyPermPayloadA keyPermPayloadB := by
  have hmeta : KeyPerm
      (Json.objCons "b" (Json.jnum 2) (Json.objCons "a" (Json.jnum 1) Json.objNil))
      (Json.objCons "a" (Json.jnum 1) (Json.objCons "b" (Json.jnum 2) Json.objNil)) :=
    KeyPerm.objCons (keyPerm_refl _) (keyPerm_refl _)
      (ObjInsert.there _ _ _ _ (ObjInsert.here _))
  have htail : KeyPerm
      (Json.objCons "region" (Json.jstr "texas")
        (Json.objCons "meta"
          (Json.objCons "b" (Json.jnum 2) (Json.objCons "a" (Json.jnum 1) Json.objNil))
          Json.objNil))
      (Json.objCons "region" (Json.jstr "texas")
        (Json.objCons "meta"
          (Json.objCons "a" (Json.jnum 1) (Json.objCons "b" (Json.jnum 2) Json.objNil))
          Json.objNil)) :=
    KeyPerm.objCons (keyPerm_refl _)
      (KeyPerm.objCons hmeta KeyPerm.objNil (ObjInsert.here _))
      (ObjInsert.here _)
  exact KeyPerm.objCons (keyPerm_refl _) htail
    (ObjInsert.there _ _ _ _ (ObjInsert.there _ _ _ _ (ObjInsert.here _)))

theorem C2_content_hash_stability_witness :
    nodupKeys keyPermPayloadA = true
      ∧ content_hash keyPermPayloadA = content_hash keyPermPayloadB :=
  ⟨by decide,
   C2_content_hash_stability.1 keyPermPayloadA keyPermPayloadB (by decide) keyPermPayload_perm⟩

/-- C3: for every event with non-null source_event_id and any store state
not already containing the key (source_system, source_event_id), two
consecutive insert_raw_event calls return (true, id) then (false, id) with
the same id, and the second call leaves the store unchanged. -/
theorem C3_insert_idempotent (st : EventStore) (e : RawEvent) (sid : String)
    (hsid : e.source_event_id = some sid)
    (hfresh : ∀ r ∈ st.rows,
      ¬ (r.ev.source_system = e.source_system ∧ r.ev.source_event_id = some sid)) :
    ∃ id : Nat,
      (insert_raw_event st e).1 = (true, id)
      ∧ (insert_raw_event (insert_raw_event st e).2 e).1 = (false, id)
      ∧ (insert_raw_event (insert_raw_event st e).2 e).2 = (insert_raw_event st e).2 := by
  have hmatch : ∀ r : StoredEvent, conflictKeyMatches e r = true ↔
      (r.ev.source_system = e.source_system ∧ r.ev.source_event_id = some sid) := by
    intro r
    unfold conflictKeyMatches
    rw [hsid]
    simp
  have hnone : st.rows.find? (conflictKeyMatches e) = none := by
    rw [List.find?_eq_none]
    intro r hr
    rw [hmatch r]
    exact hfresh r hr
  have hfirst : insert_raw_event st e
      = ((true, st.nextId), ⟨st.rows ++ [⟨st.nextId, e⟩], st.nextId + 1⟩) := by
    unfold insert_raw_event
    rw [hnone]
    rfl
  refine ⟨st.nextId, by rw [hfirst], ?_, ?_⟩
  all_goals
    rw [hfirst]
    have hself : conflictKeyMatches e (StoredEvent.mk st.nextId e) = true := by
      rw [hmatch]
      exact ⟨rfl, hsid⟩
    have hfind : (st.rows ++ [StoredEvent.mk st.nextId e]).find? (conflictKeyMatches e)
        = some (StoredEvent.mk st.nextId e) := by
      rw [List.find?_append, hnone]
      simp [hself]
    simp [insert_raw_event, hfind]

theorem C3_insert_idempotent_witness :
    ∃ id : Nat,
      (insert_raw_event emptyStore sampleRawEvent).1 = (true, id)
      ∧ (insert_raw_event (insert_raw_event emptyStore sampleRawEvent).2 sampleRawEvent).1
          = (false, id)
      ∧ (insert_raw_event (insert_raw_event emptyStore sampleRawEvent).2 sampleRawEvent).2
          = (insert_raw_event emptyStore sampleRawEvent).2 :=
  C3_insert_idempotent emptyStore sampleRawEvent "reeu_0001" rfl (by simp [emptyStore])

/-- C5: for every chain row and UTC date string, build_alert yields an
alert_id equal to the first 24 hex characters of the SHA-256 of
"chain_progression|AK|lineage_id|utc_date"; the id does not depend on the
company_id argument (nor on the wall clock), so one lineage yields one
alert_id per UTC day. A concrete evaluation pins the actual digest, and
every alert_id has exactly 24 characters. -/
theorem C5_alert_id_stable :
    (∀ (row : ARow) (d : String) (cid : Option String) (now : Nat),
        (build_alert row d cid now).alert_id
          = String.mk ((sha256_hex
              ("chain_progression|AK|" ++ row.lineage_id ++ "|" ++ d)).data.take 24))
      ∧ (∀ (row : ARow) (d : String) (c1 c2 : Option String) (n1 n2 : Nat),
          (build_alert row d c1 n1).alert_id = (build_alert row d c2 n2).alert_id)
      ∧ (build_alert sampleARow "2026-02-07" none 0).alert_id = "6091455c8164a7440b53a116"
      ∧ (∀ (row : ARow) (d : String) (cid : Option String) (now : Nat),
          (build_alert row d cid now).alert_id.length = 24) := by
  refine ⟨fun _ _ _ _ => rfl, fun _ _ _ _ _ _ => rfl, by decide, ?_⟩
  intro row d cid now
  show (String.mk ((sha256_hex
      ("chain_progression|AK|" ++ row.lineage_id ++ "|" ++ d)).data.take 24)).length = 24
  have h64 : ∀ s : String, (sha256_hex s).data.length = 64 := by
    intro s
    show (hash8Hex (sha256Bytes (utf8Bytes s))).data.length = 64
    unfold hash8Hex word32Hex
    simp
  simp [String.length, h64]

/-- C7: tier_for_score maps scores to tiers by the thresholds 0.8/0.5/0.3
(S6 values included), the empty tier below 0.3, and tier rank is monotone
in the score. -/
theorem C7_tiering :
    tier_for_score 0.8 = "high" ∧ tier_for_score 0.5 = "medium"
      ∧ tier_for_score 0.3 = "low" ∧ tier_for_score 0.29 = ""
      ∧ (∀ s : ℚ, 0.8 ≤ s → tier_for_score s = "high")
      ∧ (∀ s : ℚ, 0.5 ≤ s → s < 0.8 → tier_for_score s = "medium")
      ∧ (∀ s : ℚ, 0.3 ≤ s → s < 0.5 → tier_for_score s = "low")
      ∧ (∀ s : ℚ, s < 0.3 → tier_for_score s = "")
      ∧ (∀ s1 s2 : ℚ, s1 ≤ s2 →
          tierRank (tier_for_score s1) ≤ tierRank (tier_for_score s2)) := by
  refine ⟨?_, ?_, ?_, ?_, ?_, ?_, ?_, ?_, ?_⟩
  · unfold tier_for_score
    rw [if_pos (by norm_num)]
  · unfold tier_for_score
    rw [if_neg (by norm_num), if_pos (by norm_num)]
  · unfold tier_for_score
    rw [if_neg (by norm_num), if_neg (by norm_num), if_pos (by norm_num)]
  · unfold tier_for_score
    rw [if_neg (by norm_num), if_neg (by norm_num), if_neg (by norm_num)]
  · intro s h
    unfold tier_for_score
    rw [if_pos (by linarith)]
  · intro s h1 h2
    unfold tier_for_score
    rw [if_neg (by linarith), if_pos (by linarith)]
  · intro s h1 h2
    unfold tier_for_score
    rw [if_neg (by linarith), if_neg (by linarith), if_pos (by linarith)]
  · intro s h
    unfold tier_for_score
    rw [if_neg (by linarith), if_neg (by linarith), if_neg (by linarith)]
  · intro s1 s2 h
    unfold tier_for_score
    split_ifs <;> first | decide | linarith

theorem C7_tiering_witness :
    tierRank (tier_for_score 0.1) ≤ tierRank (tier_for_score 0.9)
      ∧ tier_for_score 0.6 = "medium" :=
  ⟨C7_tiering.2.2.2.2.2.2.2.2 0.1 0.9 (by norm_num),
   C7_tiering.2.2.2.2.2.1 0.6 (by norm_num) (by norm_num)⟩

theorem bucketFor_flags_aux (l : String) :
    ∀ (events : List CVEvent) (b : Bucket),
      (events.foldl (fun b e => if eventLineage e = some l then stepBucket b e else b) b).flags
        = events.foldl
            (fun f e =>
              if eventLineage e = some l then orFlags f (eventFlags e.payload_json) else f)
            b.flags := by
  intro events
  induction events with
  | nil => intro b; rfl
  | cons e es ih =>
    intro b
    simp only [List.foldl_cons]
    by_cases h : eventLineage e = some l
    · rw [if_pos h, if_pos h, ih]
      rfl
    · rw [if_neg h, if_neg h, ih]

theorem bucketFor_flags (events : List CVEvent) (l : String) :
    (bucketFor events l).flags = flagsFor events l :=
  bucketFor_flags_aux l events initBucket

theorem iteScoreLe {a b : Bool} (h : a = true → b = true) {c : ℚ} (hc : 0 ≤ c) :
    (if a then c else 0) ≤ (if b then c else 0) := by
  by_cases ha : a = true
  · rw [if_pos ha, if_pos (h ha)]
  · rw [if_neg ha]
    by_cases hb : b = true
    · rw [if_pos hb]
      exact hc
    · rw [if_neg hb]

theorem scoreOfFlags_mono {a b : ChainFlags} (h : FlagsLe a b) :
    scoreOfFlags a ≤ scoreOfFlags b := by
  obtain ⟨h1, h2, h3, h4, h5, h6, h7, h8, h9, h10⟩ := h
  unfold scoreOfFlags
  refine add_le_add (add_le_add (add_le_add (add_le_add (add_le_add (add_le_add
    (add_le_add ?_ ?_) ?_) ?_) ?_) ?_) ?_) ?_
  · exact iteScoreLe h1 (by norm_num)
  · exact iteScoreLe h2 (by norm_num)
  · exact iteScoreLe h3 (by norm_num)
  · exact iteScoreLe h4 (by norm_num)
  · exact iteScoreLe h7 (by norm_num)
  · exact iteScoreLe h8 (by norm_num)
  · exact iteScoreLe h9 (by norm_num)
  · exact iteScoreLe h10 (by norm_num)

theorem flagsLe_refl (a : ChainFlags) : FlagsLe a a :=
  ⟨id, id, id, id, id, id, id, id, id, id⟩

theorem flagsLe_orFlags (f g : ChainFlags) : FlagsLe f (orFlags f g) := by
  refine ⟨?_, ?_, ?_, ?_, ?_, ?_, ?_, ?_, ?_, ?_⟩
  all_goals intro h; simp [orFlags, h]

theorem round4_mono {a b : ℚ} (h : a ≤ b) : round4 a ≤ round4 b := by
  unfold round4
  have hfl : (⌊a * 10000 + 1 / 2⌋ : ℤ) ≤ ⌊b * 10000 + 1 / 2⌋ :=
    Int.floor_le_floor (by linarith)
  have h2 : ((⌊a * 10000 + 1 / 2⌋ : ℤ) : ℚ) ≤ ((⌊b * 10000 + 1 / 2⌋ : ℤ) : ℚ) := by
    exact_mod_cast hfl
  linarith

theorem bool_or_right_comm (a b c : Bool) : (a || b || c) = (a || c || b) := by
  cases a <;> cases b <;> cases c <;> rfl

theorem orFlags_right_comm (f a b : ChainFlags) :
    orFlags (orFlags f a) b = orFlags (orFlags f b) a := by
  simp only [orFlags, ChainFlags.mk.injEq]
  refine ⟨?_, ?_, ?_, ?_, ?_, ?_, ?_, ?_, ?_, ?_⟩
  all_goals exact bool_or_right_comm _ _ _

theorem foldl_perm_of_comm {α β : Type} (g : β → α → β)
    (hg : ∀ b x y, g (g b x) y = g (g b y) x) :
    ∀ {l1 l2 : List α}, l1.Perm l2 → ∀ b, l1.foldl g b = l2.foldl g b := by
  intro l1 l2 hp
  induction hp with
  | nil => intro b; rfl
  | cons x h ih =>
    intro b
    simp only [List.foldl_cons]
    exact ih _
  | swap x y l =>
    intro b
    simp only [List.foldl_cons]
    rw [hg]
  | trans h1 h2 ih1 ih2 =>
    intro b
    rw [ih1, ih2]

theorem flagsFor_perm {es1 es2 : List CVEvent} (hp : es1.Perm es2) (l : String) :
    flagsFor es1 l = flagsFor es2 l := by
  unfold flagsFor
  refine foldl_perm_of_comm _ ?_ hp noFlags
  intro f x y
  by_cases hx : eventLineage x = some l
  · by_cases hy : eventLineage y = some l
    · simp only [if_pos hx, if_pos hy]
      exact orFlags_right_comm f (eventFlags x.payload_json) (eventFlags y.payload_json)
    · simp only [if_pos hx, if_neg hy]
  · by_cases hy : eventLineage y = some l
    · simp only [if_neg hx, if_pos hy]
    · simp only [if_neg hx, if_neg hy]

theorem insertRowByScore_perm (r : ChainRow) :
    ∀ l : List ChainRow, (insertRowByScore r l).Perm (r :: l) := by
  intro l
  induction l with
  | nil => exact List.Perm.refl _
  | cons x xs ih =>
    unfold insertRowByScore
    by_cases h : r.score > x.score
    · rw [if_pos h]
    · rw [if_neg h]
      exact List.Perm.trans (List.Perm.cons x ih) (List.Perm.swap r x xs)

theorem sortRowsByScore_perm_aux :
    ∀ (rows acc : List ChainRow),
      (rows.foldl (fun acc r => insertRowByScore r acc) acc).Perm (acc ++ rows) := by
  intro rows
  induction rows with
  | nil =>
    intro acc
    rw [List.append_nil]
    exact List.Perm.refl acc
  | cons r rs ih =>
    intro acc
    simp only [List.foldl_cons]
    refine List.Perm.trans (ih (insertRowByScore r acc)) ?_
    refine List.Perm.trans (List.Perm.append_right rs (insertRowByScore_perm r acc)) ?_
    exact List.perm_middle.symm

theorem sortRowsByScore_perm (rows : List ChainRow) :
    (sortRowsByScore rows).Perm rows :=
  sortRowsByScore_perm_aux rows []

/-- C6: adding an event never lowers a lineage's score (in particular an
event that activates a new stage), scoring is invariant under permutation
of the event set, and every row emitted by compute_chain_scores carries
exactly the score scoreOf assigns to its lineage. -/
theorem C6_chain_scoring_monotone :
    (∀ (events : List CVEvent) (e : CVEvent) (l : String),
        scoreOf events l ≤ scoreOf (events ++ [e]) l)
      ∧ (∀ (es1 es2 : List CVEvent), es1.Perm es2 → ∀ l : String,
          scoreOf es1 l = scoreOf es2 l)
      ∧ (∀ (events : List CVEvent) (r : ChainRow), r ∈ compute_chain_scores events →
          r.score = scoreOf events r.lineage_id) := by
  refine ⟨?_, ?_, ?_⟩
  · intro events e l
    unfold scoreOf
    refine round4_mono (scoreOfFlags_mono ?_)
    unfold flagsFor
    rw [List.foldl_append, List.foldl_cons, List.foldl_nil]
    by_cases h : eventLineage e = some l
    · rw [if_pos h]
      exact flagsLe_orFlags _ _
    · rw [if_neg h]
      exact flagsLe_refl _
  · intro es1 es2 hp l
    unfold scoreOf
    rw [flagsFor_perm hp]
  · intro events r hr
    unfold compute_chain_scores at hr
    have hr2 := (sortRowsByScore_perm _).mem_iff.mp hr
    obtain ⟨l, hl, hrow⟩ := List.mem_map.mp hr2
    subst hrow
    show round4 (scoreOfFlags (bucketFor events l).flags) = scoreOf events (mkRow l (bucketFor events l)).lineage_id
    rw [bucketFor_flags]
    rfl

theorem C6_chain_scoring_monotone_witness :
    scoreOf [s2Event1, s2Event2] "SEC:PERMIAN_RESOURCES"
        = scoreOf [s2Event2, s2Event1] "SEC:PERMIAN_RESOURCES"
      ∧ (mkRow "AK:perm1" (bucketFor [permitEvent] "AK:perm1")).score
          = scoreOf [permitEvent] "AK:perm1" :=
  ⟨C6_chain_scoring_monotone.2.1 [s2Event1, s2Event2] [s2Event2, s2Event1]
      (List.Perm.swap s2Event2 s2Event1 []) "SEC:PERMIAN_RESOURCES",
   C6_chain_scoring_monotone.2.2 [permitEvent]
      (mkRow "AK:perm1" (bucketFor [permitEvent] "AK:perm1")) (List.Mem.head _)⟩

theorem scoreOfFlags_noFlags : scoreOfFlags noFlags = 0 := by
  norm_num [scoreOfFlags, noFlags]

theorem round4_zero : round4 0 = 0 := by
  unfold round4
  have h0 : (0 : ℚ) * 10000 + 1 / 2 = 1 / 2 := by norm_num
  rw [h0]
  have hf : ⌊(1 : ℚ) / 2⌋ = 0 := by
    rw [Int.floor_eq_zero_iff, Set.mem_Ico]
    norm_num
  rw [hf]
  norm_num

/-- C1 (code bug): on the exact S2 scenario — two insider_buy events for
one lineage with two distinct filers 14 days apart — compute_chain_scores
emits one row for the lineage whose score is 0, with every stage flag
false: the function has no insider_buy handling at all (no has_insider_buy
or has_insider_buy_cluster key is produced and no +0.15/+0.10 bonus
exists), contradicting the spec and the repository's own test
test_chain_scoring_adds_insider_buy_bonus_and_cluster_bonus, which demands
has_insider_buy, has_insider_buy_cluster and score 0.25 on these inputs. -/
theorem C1_insider_cluster_not_scored :
    (compute_chain_scores [s2Event1, s2Event2]).map ChainRow.lineage_id
        = ["SEC:PERMIAN_RESOURCES"]
      ∧ (compute_chain_scores [s2Event1, s2Event2]).map ChainRow.score = [0]
      ∧ flagsFor [s2Event1, s2Event2] "SEC:PERMIAN_RESOURCES" = noFlags := by
  have hflags : flagsFor [s2Event1, s2Event2] "SEC:PERMIAN_RESOURCES" = noFlags := by decide
  refine ⟨rfl, ?_, hflags⟩
  show [(mkRow "SEC:PERMIAN_RESOURCES"
    (bucketFor [s2Event1, s2Event2] "SEC:PERMIAN_RESOURCES")).score] = [0]
  rw [List.cons.injEq]
  refine ⟨?_, rfl⟩
  show round4 (scoreOfFlags
    (bucketFor [s2Event1, s2Event2] "SEC:PERMIAN_RESOURCES").flags) = 0
  rw [bucketFor_flags, hflags, scoreOfFlags_noFlags, round4_zero]

theorem mem_insertStrSorted (x y : String) :
    ∀ l : List String, x ∈ insertStrSorted y l ↔ x = y ∨ x ∈ l := by
  intro l
  induction l with
  | nil => simp [insertStrSorted]
  | cons z zs ih =>
    unfold insertStrSorted
    by_cases h : strLt y z
    · rw [if_pos h]
      simp
    · rw [if_neg h]
      simp only [List.mem_cons, ih]
      tauto

theorem mem_sortStrings (x : String) : ∀ l : List String, x ∈ sortStrings l ↔ x ∈ l := by
  intro l
  induction l with
  | nil => simp [sortStrings]
  | cons y ys ih =>
    show x ∈ insertStrSorted y (sortStrings ys) ↔ _
    rw [mem_insertStrSorted, ih]
    simp

theorem mem_dedupAux (x : String) :
    ∀ (l seen : List String), x ∈ dedupAux l seen ↔ x ∈ l ∧ x ∉ seen := by
  intro l
  induction l with
  | nil => intro seen; simp [dedupAux]
  | cons y ys ih =>
    intro seen
    unfold dedupAux
    by_cases h : y ∈ seen
    · rw [if_pos h, ih]
      constructor
      · rintro ⟨hx, hs⟩
        exact ⟨List.mem_cons_of_mem y hx, hs⟩
      · rintro ⟨hx, hs⟩
        rcases List.mem_cons.mp hx with rfl | hx
        · exact absurd h hs
        · exact ⟨hx, hs⟩
    · rw [if_neg h]
      simp only [List.mem_cons, ih, List.mem_cons]
      constructor
      · rintro (rfl | ⟨hx, hs⟩)
        · exact ⟨Or.inl rfl, h⟩
        · exact ⟨Or.inr hx, fun hc => hs (Or.inr hc)⟩
      · rintro ⟨rfl | hx, hs⟩
        · exact Or.inl rfl
        · by_cases hxy : x = y
          · exact Or.inl hxy
          · exact Or.inr ⟨hx, fun hc => (by
              rcases hc with rfl | hc
              · exact hxy rfl
              · exact hs hc)⟩

theorem mem_sortedSetStrings (x : String) (l : List String) :
    x ∈ sortedSetStrings l ↔ x ∈ l := by
  unfold sortedSetStrings dedupStr
  rw [mem_sortStrings, mem_dedupAux]
  simp

theorem sorted_insertStrSorted (x : String) :
    ∀ l : List String, List.Sorted (· ≤ ·) l →
      List.Sorted (· ≤ ·) (insertStrSorted x l) := by
  intro l
  induction l with
  | nil => intro _; simp [insertStrSorted]
  | cons y ys ih =>
    intro h
    unfold insertStrSorted
    rw [List.sorted_cons] at h
    obtain ⟨hall, hys⟩ := h
    by_cases hlt : strLt x y
    · rw [if_pos hlt]
      have hxy : x < y := (strLt_iff x y).mp hlt
      rw [List.sorted_cons]
      refine ⟨?_, List.sorted_cons.mpr ⟨hall, hys⟩⟩
      intro b hb
      rcases List.mem_cons.mp hb with rfl | hb
      · exact le_of_lt hxy
      · exact le_trans (le_of_lt hxy) (hall b hb)
    · rw [if_neg hlt]
      have hyx : y ≤ x := by
        have : ¬ x < y := fun hc => hlt ((strLt_iff x y).mpr hc)
        exact le_of_not_lt this
      rw [List.sorted_cons]
      refine ⟨?_, ih hys⟩
      intro b hb
      rcases (mem_insertStrSorted b x ys).mp hb with rfl | hb
      · exact hyx
      · exact hall b hb

theorem sorted_sortStrings : ∀ l : List String, List.Sorted (· ≤ ·) (sortStrings l) := by
  intro l
  induction l with
  | nil => simp [sortStrings]
  | cons y ys ih => exact sorted_insertStrSorted y (sortStrings ys) ih

/-- C4: apply_convergence maps rowConv over the rows; for a row with
computed anchor a and window w days, a category is among the row's
convergence_categories exactly when some signal for one of the row's keys
carries it with a − w·86400 ≤ t ≤ a — so a signal strictly earlier than
anchor − window contributes nothing, one at exactly anchor − window
contributes its categories, and one strictly later than the anchor
contributes nothing; convergence_score is the number of the distinct
categories listed and the list is sorted; rows without a time anchor get
score 0. -/
theorem C4_convergence_window :
    (∀ (rows : List CRow) (events : List CVEvent) (w : Nat),
        apply_convergence rows events w = rows.map (rowConv events w))
      ∧ (∀ (events : List CVEvent) (w : Nat) (r : CRow) (a : Int),
          anchorOf events r = some a →
          (∀ c : String,
            c ∈ (rowConv events w r).convergence_categories ↔
              ∃ k ∈ _row_keys r, ∃ p ∈ signalsForKey events k,
                (a - (w : Int) * 86400 ≤ p.1 ∧ p.1 ≤ a) ∧ p.2 = c)
          ∧ (rowConv events w r).convergence_score
              = (rowConv events w r).convergence_categories.length
          ∧ List.Sorted (· ≤ ·) (rowConv events w r).convergence_categories)
      ∧ (∀ (events : List CVEvent) (w : Nat) (r : CRow),
          anchorOf events r = none →
          (rowConv events w r).convergence_score = 0
            ∧ (rowConv events w r).convergence_categories = []) := by
  refine ⟨fun _ _ _ => rfl, ?_, ?_⟩
  · intro events w r a ha
    have hconv : rowConv events w r =
        ⟨r,
         (sortedSetStrings ((_row_keys r).flatMap
           (fun k => _categories_within_window (signalsForKey events k)
             (a - (w : Int) * 86400) a))).length,
         sortedSetStrings ((_row_keys r).flatMap
           (fun k => _categories_within_window (signalsForKey events k)
             (a - (w : Int) * 86400) a))⟩ := by
      unfold rowConv
      rw [ha]
    rw [hconv]
    refine ⟨?_, rfl, sorted_sortStrings _⟩
    intro c
    rw [mem_sortedSetStrings]
    simp only [List.mem_flatMap, _categories_within_window, List.mem_map, List.mem_filter,
      Bool.and_eq_true, decide_eq_true_eq]
    constructor
    · rintro ⟨k, hk, p, ⟨hp, h1, h2⟩, hc⟩
      exact ⟨k, hk, p, hp, ⟨h1, h2⟩, hc⟩
    · rintro ⟨k, hk, p, hp, ⟨h1, h2⟩, hc⟩
      exact ⟨k, hk, p, ⟨hp, h1, h2⟩, hc⟩
  · intro events w r h
    unfold rowConv
    rw [h]
    exact ⟨rfl, rfl⟩

theorem C4_convergence_window_witness :
    (rowConv [convEvent] 30 convRow).convergence_score
        = (rowConv [convEvent] 30 convRow).convergence_categories.length
      ∧ List.Sorted (· ≤ ·) (rowConv [convEvent] 30 convRow).convergence_categories :=
  ⟨(C4_convergence_window.2.1 [convEvent] 30 convRow 1770000000 (by decide)).2.1,
   (C4_convergence_window.2.1 [convEvent] 30 convRow 1770000000 (by decide)).2.2⟩

/-- C8 counterexample: "04-15-2026" is a well-formed MM-DD-YYYY date, an
input form the claim lists as accepted by the REE/Uranium adapter, yet
ree_uranium._parse_dt returns None for it — its strptime cascade is
("%Y-%m-%d", "%m/%d/%Y", "%d-%b-%Y") and has no "%m-%d-%Y". -/
theorem C8_ree_mdy_counterexample : ree_parse_dt "04-15-2026" = none := by decide

/-- C8 (amended): each adapter's date coercion maps its accepted forms to
UTC epoch instants and unparseable strings to None. The REE/Uranium
adapter accepts ISO-8601 with Z, ISO-8601 with offset (normalized to the
same instant), YYYY-MM-DD, MM/DD/YYYY and DD-MMM-YYYY — but not
MM-DD-YYYY, which only the SEC adapter accepts. -/
theorem C8_date_coercion :
    ree_parse_dt "2026-04-15T08:00:00Z" = some (epochSecs 2026 4 15 8 0 0 0)
      ∧ ree_parse_dt "2026-04-15T10:00:00+02:00" = ree_parse_dt "2026-04-15T08:00:00Z"
      ∧ ree_parse_dt "2026-04-15" = some (epochSecs 2026 4 15 0 0 0 0)
      ∧ ree_parse_dt "04/15/2026" = some (epochSecs 2026 4 15 0 0 0 0)
      ∧ ree_parse_dt "15-Apr-2026" = some (epochSecs 2026 4 15 0 0 0 0)
      ∧ ree_parse_dt "04-15-2026" = none
      ∧ sec_parse_dt "04-15-2026" = some (epochSecs 2026 4 15 0 0 0 0)
      ∧ sec_parse_dt "2026-04-15T08:00:00Z" = some (epochSecs 2026 4 15 8 0 0 0)
      ∧ ree_parse_dt "not a date" = none
      ∧ sec_parse_dt "" = none := by
  refine ⟨?_, ?_, ?_, ?_, ?_, ?_, ?_, ?_, ?_, ?_⟩ <;> decide

theorem jsonAttemptLoop_all_fail (oracle : Nat → JsonAttempt)
    (hfail : ∀ i v, oracle i ≠ .ok v) :
    ∀ (fuel attempt : Nat), jsonAttemptLoop oracle attempt fuel = Json.objNil := by
  intro fuel
  induction fuel with
  | zero => intro attempt; rfl
  | succ fuel ih =>
    intro attempt
    unfold jsonAttemptLoop
    cases h : oracle attempt with
    | ok v => exact absurd h (hfail attempt v)
    | httpErr c =>
      show (if retryableStatus c = true ∧ 1 ≤ fuel then jsonAttemptLoop oracle (attempt + 1) fuel
        else Json.objNil) = Json.objNil
      by_cases hc : retryableStatus c = true ∧ 1 ≤ fuel
      · rw [if_pos hc]
        exact ih (attempt + 1)
      · rw [if_neg hc]
    | decodeFail =>
      show (if 1 ≤ fuel then jsonAttemptLoop oracle (attempt + 1) fuel
        else Json.objNil) = Json.objNil
      by_cases hc : 1 ≤ fuel
      · rw [if_pos hc]
        exact ih (attempt + 1)
      · rw [if_neg hc]
    | transportErr =>
      show (if 1 ≤ fuel then jsonAttemptLoop oracle (attempt + 1) fuel
        else Json.objNil) = Json.objNil
      by_cases hc : 1 ≤ fuel
      · rw [if_pos hc]
        exact ih (attempt + 1)
      · rw [if_neg hc]

theorem textAttemptLoop_all_fail (oracle : Nat → TextAttempt)
    (hfail : ∀ i b, oracle i ≠ .ok b) :
    ∀ (fuel attempt : Nat), textAttemptLoop oracle attempt fuel = "" := by
  intro fuel
  induction fuel with
  | zero => intro attempt; rfl
  | succ fuel ih =>
    intro attempt
    unfold textAttemptLoop
    cases h : oracle attempt with
    | ok b => exact absurd h (hfail attempt b)
    | httpErr c =>
      show (if retryableStatus c = true ∧ 1 ≤ fuel then textAttemptLoop oracle (attempt + 1) fuel
        else "") = ""
      by_cases hc : retryableStatus c = true ∧ 1 ≤ fuel
      · rw [if_pos hc]
        exact ih (attempt + 1)
      · rw [if_neg hc]
    | transportErr =>
      show (if 1 ≤ fuel then textAttemptLoop oracle (attempt + 1) fuel
        else "") = ""
      by_cases hc : 1 ≤ fuel
      · rw [if_pos hc]
        exact ih (attempt + 1)
      · rw [if_neg hc]

/-- C9: when no attempt succeeds — every attempt is an HTTP error, a
transport/timeout error or (for JSON) a decode failure — the fetch
returns the empty dict (JSON) or the empty string (text) for any retry
budget; and a non-retryable HTTP status on the first attempt yields the
empty value immediately. The functions are total, so no error ever
propagates to the caller. -/
theorem C9_http_empty_on_failure :
    (∀ (oracle : Nat → JsonAttempt) (m : Nat),
        (∀ i v, oracle i ≠ .ok v) → http_get_json_with_retry oracle m = Json.objNil)
      ∧ (∀ (oracle : Nat → TextAttempt) (m : Nat),
          (∀ i b, oracle i ≠ .ok b) → http_get_text_with_retry oracle m = "")
      ∧ (∀ (oracle : Nat → JsonAttempt) (m c : Nat),
          oracle 0 = .httpErr c → retryableStatus c = false →
          http_get_json_with_retry oracle m = Json.objNil)
      ∧ (∀ (oracle : Nat → TextAttempt) (m c : Nat),
          oracle 0 = .httpErr c → retryableStatus c = false →
          http_get_text_with_retry oracle m = "") := by
  refine ⟨?_, ?_, ?_, ?_⟩
  · intro oracle m h
    exact jsonAttemptLoop_all_fail oracle h (m + 1) 0
  · intro oracle m h
    exact textAttemptLoop_all_fail oracle h (m + 1) 0
  · intro oracle m c h hnr
    unfold http_get_json_with_retry jsonAttemptLoop
    rw [h]
    show (if retryableStatus c = true ∧ 1 ≤ m then jsonAttemptLoop oracle (0 + 1) m
      else Json.objNil) = Json.objNil
    rw [if_neg (by simp [hnr])]
  · intro oracle m c h hnr
    unfold http_get_text_with_retry textAttemptLoop
    rw [h]
    show (if retryableStatus c = true ∧ 1 ≤ m then textAttemptLoop oracle (0 + 1) m
      else "") = ""
    rw [if_neg (by simp [hnr])]

theorem C9_http_empty_on_failure_witness :
    http_get_json_with_retry (fun _ => JsonAttempt.httpErr 404) 3 = Json.objNil
      ∧ http_get_text_with_retry (fun _ => TextAttempt.transportErr) 3 = "" :=
  ⟨C9_http_empty_on_failure.2.2.1 (fun _ => JsonAttempt.httpErr 404) 3 404 rfl (by decide),
   C9_http_empty_on_failure.2.1 (fun _ => TextAttempt.transportErr) 3
     (fun i b h => TextAttempt.noConfusion h)⟩

theorem classify_form4_mem (code : Option String) (et : String) (tt : Option String)
    (h : _classify_form4_transaction code = (some et, tt)) :
    et ∈ ["insider_buy", "insider_sell", "insider_option_exercise"] := by
  simp only [_classify_form4_transaction] at h
  split_ifs at h <;> simp_all

/-- C10: parse_form4_transactions is total on arbitrary text: the empty
string, any text from which no ownershipDocument can be extracted, and any
extracted XML that fails to parse all give the empty list instead of an
error; and every returned row's event_type is one of insider_buy,
insider_sell, insider_option_exercise (transaction codes other than
P, S, M are skipped). -/
theorem C10_form4_totality :
    parse_form4_transactions "" = []
      ∧ (∀ t : String, _extract_form4_xml t = none → parse_form4_transactions t = [])
      ∧ (∀ t x : String, _extract_form4_xml t = some x → parseXml x = none →
          parse_form4_transactions t = [])
      ∧ (∀ (t : String) (r : F4Row), r ∈ parse_form4_transactions t →
          r.event_type ∈ ["insider_buy", "insider_sell", "insider_option_exercise"]) := by
  refine ⟨rfl, ?_, ?_, ?_⟩
  · intro t h
    unfold parse_form4_transactions
    rw [h]
  · intro t x h hx
    unfold parse_form4_transactions
    rw [h]
    show parseForm4FromXml x = []
    unfold parseForm4FromXml
    rw [hx]
  · intro t r hr
    cases hE : _extract_form4_xml t with
    | none =>
      have h0 : parse_form4_transactions t = [] := by
        unfold parse_form4_transactions
        rw [hE]
      rw [h0] at hr
      cases hr
    | some xml =>
      have h1 : parse_form4_transactions t = parseForm4FromXml xml := by
        unfold parse_form4_transactions
        rw [hE]
      rw [h1] at hr
      cases hX : parseXml xml with
      | none =>
        have h2 : parseForm4FromXml xml = [] := by
          unfold parseForm4FromXml
          rw [hX]
        rw [h2] at hr
        cases hr
      | some root =>
        have h2 : parseForm4FromXml xml = parseForm4Rows root := by
          unfold parseForm4FromXml
          rw [hX]
        rw [h2] at hr
        unfold parseForm4Rows at hr
        obtain ⟨bn, hbn, hf⟩ := List.mem_filterMap.mp hr
        dsimp only at hf
        rcases hcl : _classify_form4_transaction
            (xmlTextPath bn.2 ["transactionCoding", "transactionCode"]) with ⟨oet, ott⟩
        cases oet with
        | none =>
          rw [hcl] at hf
          cases hf
        | some et =>
          rw [hcl] at hf
          have hrt : r.event_type = et := by
            cases hf
            rfl
          rw [hrt]
          exact classify_form4_mem _ et ott hcl

theorem C10_form4_totality_witness :
    parse_form4_transactions "no filing here" = []
      ∧ parse_form4_transactions badForm4Doc = [] :=
  ⟨C10_form4_totality.2.1 "no filing here" (by decide),
   C10_form4_totality.2.2.1 badForm4Doc badForm4Doc (by decide) (by decide)⟩

/-- sanity: the minimal well-formed filing yields one insider_buy row with
the reported owner attached. -/
theorem sampleForm4_parses :
    (parse_form4_transactions sampleForm4Doc).map F4Row.event_type = ["insider_buy"]
      ∧ (parse_form4_transactions sampleForm4Doc).map F4Row.filer_name
          = [some "Dana Morgan"]
      ∧ (parse_form4_transactions sampleForm4Doc).map F4Row.relationship
          = [some "director"] := by
  refine ⟨?_, ?_, ?_⟩ <;> decide

theorem sha256_empty_vector :
    sha256_hex "" = "e3b0c44298fc1c149afbf4c8996fb92427ae41e4649b934ca495991b7852b855" := by decide

theorem sha256_abc_vector :
    sha256_hex "abc" = "ba7816bf8f01cfea414140de5dae2223b00361a396177a9cb410ff61f20015ad" := by decide
